import Mathlib

/-!
# TraceLens checkpoint/trace core — verification of spec claims

A shallow embedding of the persistence and read-path core of the TraceLens
backend (`src/backend/src`), translated from the Python source:

* `src/storage/sqlite_checkpointer.py` — state serialization, `put`,
  `aget_tuple`, `list`;
* `src/storage/db_manager.py` — the `checkpoints` table with primary key
  `(thread_id, checkpoint_id)`;
* `src/api/graph_builder.py` — graph reconstruction from spans;
* `src/api/main.py` — checkpoint diff, intervention endpoints
  (update-state / resume / branch), error sanitization;
* `src/api/models.py` and `src/api/config.py` — request validation and the
  configurable state-size ceiling.

Python dictionaries are modelled as association lists in insertion order
(Python 3.7+ dicts preserve insertion order and have pairwise-distinct keys).
Machine-level aspects that no claim depends on (floats, wall-clock time,
UUID generation) are modelled by explicit parameters or omitted with a note
at the definition.
-/

namespace TraceLens

/-! ## Python value model

Workflow state is an arbitrary Python object tree.  We model the value kinds
that the repository's states are built from: `None`, `bool`, `int`, `str`,
`list`, `dict`, plus an opaque non-JSON-serializable object (`pyObj`) to
exercise the pickle fallback.  Python permits any hashable dict key; JSON
serialization accepts `str`, `int`, `bool` and `None` keys (coercing them to
strings), which is what `PyKey` captures.  Floats are not modelled. -/

inductive PyKey where
  | ks (s : String)
  | ki (n : Int)
  | kb (b : Bool)
  | kn
deriving DecidableEq, Repr

inductive PyVal where
  | pyNone
  | pyBool (b : Bool)
  | pyInt (n : Int)
  | pyStr (s : String)
  | pyList (xs : List PyVal)
  | pyDict (entries : List (PyKey × PyVal))
  | pyObj (objId : Nat)

mutual

def decEqPyVal : (a b : PyVal) → Decidable (a = b)
  | .pyNone, .pyNone => isTrue rfl
  | .pyBool a, .pyBool b =>
    match decEq a b with
    | isTrue h => isTrue (by rw [h])
    | isFalse h => isFalse (by intro e; injection e; contradiction)
  | .pyInt a, .pyInt b =>
    match decEq a b with
    | isTrue h => isTrue (by rw [h])
    | isFalse h => isFalse (by intro e; injection e; contradiction)
  | .pyStr a, .pyStr b =>
    match decEq a b with
    | isTrue h => isTrue (by rw [h])
    | isFalse h => isFalse (by intro e; injection e; contradiction)
  | .pyObj a, .pyObj b =>
    match decEq a b with
    | isTrue h => isTrue (by rw [h])
    | isFalse h => isFalse (by intro e; injection e; contradiction)
  | .pyList xs, .pyList ys =>
    match decEqPyValList xs ys with
    | isTrue h => isTrue (by rw [h])
    | isFalse h => isFalse (by intro e; injection e; contradiction)
  | .pyDict es, .pyDict fs =>
    match decEqPyEntries es fs with
    | isTrue h => isTrue (by rw [h])
    | isFalse h => isFalse (by intro e; injection e; contradiction)
  | .pyNone, .pyBool _ | .pyNone, .pyInt _ | .pyNone, .pyStr _
  | .pyNone, .pyList _ | .pyNone, .pyDict _ | .pyNone, .pyObj _
  | .pyBool _, .pyNone | .pyBool _, .pyInt _ | .pyBool _, .pyStr _
  | .pyBool _, .pyList _ | .pyBool _, .pyDict _ | .pyBool _, .pyObj _
  | .pyInt _, .pyNone | .pyInt _, .pyBool _ | .pyInt _, .pyStr _
  | .pyInt _, .pyList _ | .pyInt _, .pyDict _ | .pyInt _, .pyObj _
  | .pyStr _, .pyNone | .pyStr _, .pyBool _ | .pyStr _, .pyInt _
  | .pyStr _, .pyList _ | .pyStr _, .pyDict _ | .pyStr _, .pyObj _
  | .pyList _, .pyNone | .pyList _, .pyBool _ | .pyList _, .pyInt _
  | .pyList _, .pyStr _ | .pyList _, .pyDict _ | .pyList _, .pyObj _
  | .pyDict _, .pyNone | .pyDict _, .pyBool _ | .pyDict _, .pyInt _
  | .pyDict _, .pyStr _ | .pyDict _, .pyList _ | .pyDict _, .pyObj _
  | .pyObj _, .pyNone | .pyObj _, .pyBool _ | .pyObj _, .pyInt _
  | .pyObj _, .pyStr _ | .pyObj _, .pyList _ | .pyObj _, .pyDict _ =>
    isFalse (fun h => PyVal.noConfusion h)

def decEqPyValList : (a b : List PyVal) → Decidable (a = b)
  | [], [] => isTrue rfl
  | [], _ :: _ => isFalse (fun h => List.noConfusion h)
  | _ :: _, [] => isFalse (fun h => List.noConfusion h)
  | x :: xs, y :: ys =>
    match decEqPyVal x y, decEqPyValList xs ys with
    | isTrue h1, isTrue h2 => isTrue (by rw [h1, h2])
    | isFalse h1, _ => isFalse (by intro e; injection e; contradiction)
    | _, isFalse h2 => isFalse (by intro e; injection e; contradiction)

def decEqPyEntries : (a b : List (PyKey × PyVal)) → Decidable (a = b)
  | [], [] => isTrue rfl
  | [], _ :: _ => isFalse (fun h => List.noConfusion h)
  | _ :: _, [] => isFalse (fun h => List.noConfusion h)
  | (k, v) :: es, (l, w) :: fs =>
    match decEq k l, decEqPyVal v w, decEqPyEntries es fs with
    | isTrue h1, isTrue h2, isTrue h3 => isTrue (by rw [h1, h2, h3])
    | isFalse h1, _, _ =>
      isFalse (by intro e; injection e with e1 e2; injection e1; contradiction)
    | _, isFalse h2, _ =>
      isFalse (by intro e; injection e with e1 e2; injection e1; contradiction)
    | _, _, isFalse h3 => isFalse (by intro e; injection e; contradiction)

end

instance : DecidableEq PyVal := decEqPyVal

/-- JSON document model: the structured image of `json.dumps` output.
JSON numbers are modelled as integers (floats are out of scope). -/
inductive JVal where
  | jnull
  | jbool (b : Bool)
  | jint (n : Int)
  | jstr (s : String)
  | jarr (xs : List JVal)
  | jobj (fields : List (String × JVal))

/-! ## `json.dumps` / `json.loads` structural semantics

`_serialize_state` calls `json.dumps(state)`, which converts the Python tree
to a JSON document, coercing non-string dict keys to their string form and
raising `TypeError` on values with no JSON representation (e.g. arbitrary
objects).  `toJson` is that conversion; `none` is the `TypeError` outcome. -/

/-- How `json.dumps` renders a non-string dict key as a JSON object key:
`str(int)`, `"true"`/`"false"` for booleans, `"null"` for `None`. -/
def pyKeyStr : PyKey → String
  | .ks s => s
  | .ki n => toString n
  | .kb true => "true"
  | .kb false => "false"
  | .kn => "null"

mutual

def toJson : PyVal → Option JVal
  | .pyNone => some .jnull
  | .pyBool b => some (.jbool b)
  | .pyInt n => some (.jint n)
  | .pyStr s => some (.jstr s)
  | .pyList xs =>
    match toJsonList xs with
    | some js => some (.jarr js)
    | none => none
  | .pyDict es =>
    match toJsonEntries es with
    | some fs => some (.jobj fs)
    | none => none
  | .pyObj _ => none

def toJsonList : List PyVal → Option (List JVal)
  | [] => some []
  | x :: xs =>
    match toJson x, toJsonList xs with
    | some j, some js => some (j :: js)
    | _, _ => none

def toJsonEntries : List (PyKey × PyVal) → Option (List (String × JVal))
  | [] => some []
  | (k, v) :: es =>
    match toJson v, toJsonEntries es with
    | some j, some js => some ((pyKeyStr k, j) :: js)
    | _, _ => none

end

/-- `dict.__setitem__` semantics on an insertion-ordered association list:
an existing key keeps its position and gets the new value, a fresh key is
appended. -/
def setKey (es : List (PyKey × PyVal)) (k : PyKey) (v : PyVal) :
    List (PyKey × PyVal) :=
  if (es.map Prod.fst).contains k then
    es.map (fun p => if p.1 = k then (k, v) else p)
  else
    es ++ [(k, v)]

/-- Building a Python dict from a sequence of key/value pairs (as
`json.loads` does for a JSON object): later duplicate keys overwrite the
value but keep the first occurrence's position. -/
def buildDict (l : List (PyKey × PyVal)) : List (PyKey × PyVal) :=
  l.foldl (fun acc p => setKey acc p.1 p.2) []

/-- `dict.update`: assign the overlay's items left to right; an existing
key keeps its position, a new key is appended (shallow merge, overlay
wins). -/
def dictUpdate (es m : List (PyKey × PyVal)) : List (PyKey × PyVal) :=
  m.foldl (fun acc p => setKey acc p.1 p.2) es

/-- `state.update(overlay)`: only a dict supports `.update`; anything else
raises `AttributeError`. -/
def pyDictUpdate (state : PyVal) (m : List (PyKey × PyVal)) :
    Except String PyVal :=
  match state with
  | .pyDict es => .ok (.pyDict (dictUpdate es m))
  | _ => .error "AttributeError: update"

/-- `if modified_state: state.update(modified_state)` — `None` and the
empty dict are falsy, so they leave the state untouched. -/
def applyModificationsPy (state : PyVal)
    (modified : Option (List (PyKey × PyVal))) : Except String PyVal :=
  match modified with
  | none => .ok state
  | some m => if m.isEmpty then .ok state else pyDictUpdate state m

mutual

/-- `json.loads` applied to the rendering of a JSON document: object keys
come back as strings, objects become dicts. -/
def fromJson : JVal → PyVal
  | .jnull => .pyNone
  | .jbool b => .pyBool b
  | .jint n => .pyInt n
  | .jstr s => .pyStr s
  | .jarr xs => .pyList (fromJsonList xs)
  | .jobj fields => .pyDict (buildDict (fromJsonEntries fields))

def fromJsonList : List JVal → List PyVal
  | [] => []
  | x :: xs => fromJson x :: fromJsonList xs

def fromJsonEntries : List (String × JVal) → List (PyKey × PyVal)
  | [] => []
  | (k, j) :: fs => (PyKey.ks k, fromJson j) :: fromJsonEntries fs

end

/-! ## `SqliteCheckpointer._serialize_state` / `_deserialize_state`

The checkpointer tries `json.dumps(state).encode('utf-8')` and falls back to
`cloudpickle.dumps(state)` on `TypeError`/`ValueError`; deserialization tries
`json.loads` and falls back to `pickle.loads` on decode errors.  The stored
bytes are modelled by their provenance: JSON bytes keep the JSON document,
pickle bytes keep the pickled value (structural pickling round-trips
the modelled value kinds exactly).  `json.loads` succeeds precisely on the
JSON branch: pickle protocol-2+ byte strings begin with `0x80` followed by a
version byte, which is not valid UTF-8 JSON. -/

inductive StateBytes where
  | jsonBytes (j : JVal)
  | pickleBytes (v : PyVal)

def serialize_state (state : PyVal) : StateBytes :=
  match toJson state with
  | some j => .jsonBytes j
  | none => .pickleBytes state

def deserialize_state : StateBytes → PyVal
  | .jsonBytes j => fromJson j
  | .pickleBytes v => v

/-! ## Well-formedness of Python state values

`distinctKeys` is the invariant every real Python dict satisfies (keys are
pairwise distinct); `stateWF` additionally demands that all dict keys, at
every depth, are strings.  It does not restrict `pyObj` (non-serializable
values fall back to pickle). -/

def distinctKeys : List PyKey → Bool
  | [] => true
  | k :: ks => !(ks.contains k) && distinctKeys ks

def keyIsStr : PyKey → Bool
  | .ks _ => true
  | _ => false

mutual

def stateWF : PyVal → Bool
  | .pyNone => true
  | .pyBool _ => true
  | .pyInt _ => true
  | .pyStr _ => true
  | .pyObj _ => true
  | .pyList xs => stateListWF xs
  | .pyDict es =>
    (es.map Prod.fst).all keyIsStr && distinctKeys (es.map Prod.fst) &&
      stateEntriesWF es

def stateListWF : List PyVal → Bool
  | [] => true
  | x :: xs => stateWF x && stateListWF xs

def stateEntriesWF : List (PyKey × PyVal) → Bool
  | [] => true
  | (_, v) :: es => stateWF v && stateEntriesWF es

end

/-! ### Serialization round-trip -/

theorem setKey_fresh (es : List (PyKey × PyVal)) (k : PyKey) (v : PyVal)
    (h : k ∉ es.map Prod.fst) :
    setKey es k v = es ++ [(k, v)] := by
  simp [setKey, h]

theorem distinctKeys_cons {k : PyKey} {ks : List PyKey}
    (h : distinctKeys (k :: ks) = true) : k ∉ ks ∧ distinctKeys ks = true := by
  simp only [distinctKeys, Bool.and_eq_true, Bool.not_eq_true'] at h
  exact ⟨by simpa using h.1, h.2⟩

theorem buildDict_go_distinct (l : List (PyKey × PyVal)) :
    ∀ acc : List (PyKey × PyVal),
    distinctKeys (l.map Prod.fst) = true →
    (∀ k ∈ l.map Prod.fst, k ∉ acc.map Prod.fst) →
    l.foldl (fun acc p => setKey acc p.1 p.2) acc = acc ++ l := by
  induction l with
  | nil => simp
  | cons p rest ih =>
    intro acc hd hacc
    obtain ⟨k, v⟩ := p
    simp only [List.foldl_cons]
    have hfresh : k ∉ acc.map Prod.fst := hacc k (by simp)
    obtain ⟨hknot, hd'⟩ := distinctKeys_cons (by simpa using hd)
    have hacc' : ∀ k' ∈ rest.map Prod.fst,
        k' ∉ (acc ++ [(k, v)]).map Prod.fst := by
      intro k' hk'
      simp only [List.map_append, List.mem_append, List.map_cons,
        List.map_nil, List.mem_singleton, not_or]
      refine ⟨hacc k' (by simp [hk']), ?_⟩
      intro hkk
      subst hkk
      exact hknot hk'
    rw [setKey_fresh _ _ _ hfresh, ih _ hd' hacc']
    simp

theorem buildDict_distinct (l : List (PyKey × PyVal))
    (hd : distinctKeys (l.map Prod.fst) = true) : buildDict l = l := by
  simpa using buildDict_go_distinct l [] hd (by simp)

mutual

theorem fromJson_toJson : ∀ (v : PyVal), stateWF v = true →
    ∀ j, toJson v = some j → fromJson j = v
  | .pyNone => by intro _ j hj; cases hj; rfl
  | .pyBool b => by intro _ j hj; cases hj; rfl
  | .pyInt n => by intro _ j hj; cases hj; rfl
  | .pyStr s => by intro _ j hj; cases hj; rfl
  | .pyObj n => by intro _ j hj; cases hj
  | .pyList xs => by
    intro hwf j hj
    simp only [toJson] at hj
    cases hxs : toJsonList xs with
    | none => rw [hxs] at hj; cases hj
    | some js =>
      rw [hxs] at hj
      cases hj
      simp only [fromJson]
      rw [fromJsonList_toJsonList xs (by simpa [stateWF] using hwf) js hxs]
  | .pyDict es => by
    intro hwf j hj
    simp only [toJson] at hj
    cases hes : toJsonEntries es with
    | none => rw [hes] at hj; cases hj
    | some fs =>
      rw [hes] at hj
      cases hj
      simp only [fromJson]
      simp only [stateWF, Bool.and_eq_true] at hwf
      rw [fromJsonEntries_toJsonEntries es hwf.1.1 hwf.2 fs hes,
        buildDict_distinct es hwf.1.2]

theorem fromJsonList_toJsonList : ∀ (xs : List PyVal),
    stateListWF xs = true →
    ∀ js, toJsonList xs = some js → fromJsonList js = xs
  | [] => by intro _ js hjs; cases hjs; rfl
  | x :: xs => by
    intro hwf js hjs
    simp only [stateListWF, Bool.and_eq_true] at hwf
    simp only [toJsonList] at hjs
    cases hx : toJson x with
    | none => rw [hx] at hjs; cases hjs
    | some j =>
      cases hxs : toJsonList xs with
      | none => rw [hx, hxs] at hjs; cases hjs
      | some rest =>
        rw [hx, hxs] at hjs
        cases hjs
        simp only [fromJsonList]
        rw [fromJson_toJson x hwf.1 j hx, fromJsonList_toJsonList xs hwf.2 rest hxs]

theorem fromJsonEntries_toJsonEntries : ∀ (es : List (PyKey × PyVal)),
    (es.map Prod.fst).all keyIsStr = true → stateEntriesWF es = true →
    ∀ fs, toJsonEntries es = some fs → fromJsonEntries fs = es
  | [] => by intro _ _ fs hfs; cases hfs; rfl
  | (k, v) :: es => by
    intro hstr hwf fs hfs
    simp only [List.map_cons, List.all_cons, Bool.and_eq_true] at hstr
    simp only [stateEntriesWF, Bool.and_eq_true] at hwf
    simp only [toJsonEntries] at hfs
    cases hv : toJson v with
    | none => rw [hv] at hfs; cases hfs
    | some j =>
      cases hes : toJsonEntries es with
      | none => rw [hv, hes] at hfs; cases hfs
      | some rest =>
        rw [hv, hes] at hfs
        cases hfs
        simp only [fromJsonEntries]
        have hk : PyKey.ks (pyKeyStr k) = k := by
          cases k with
          | ks s => rfl
          | ki n => simp [keyIsStr] at hstr
          | kb b => simp [keyIsStr] at hstr
          | kn => simp [keyIsStr] at hstr
        rw [hk, fromJson_toJson v hwf.1 j hv,
          fromJsonEntries_toJsonEntries es hstr.2 hwf.2 rest hes]

end

/-- Round trip of the checkpointer's serializer: identity on states whose
dicts all have distinct string keys (the pickle fallback is the identity
unconditionally). -/
theorem deserialize_serialize (v : PyVal) (h : stateWF v = true) :
    deserialize_state (serialize_state v) = v := by
  unfold serialize_state
  cases hj : toJson v with
  | none => rfl
  | some j => exact fromJson_toJson v h j hj

/-! ## String primitives

The repository compares `created_at` strings through SQLite (`BINARY`
collation on UTF-8 text = code-point lexicographic order), uses
`str.startswith`, `str.replace`, `str.lower` and the `in` substring test.
These are modelled by structurally-recursive functions on the character
list of a `String` (Lean's built-in `String` order and search functions are
extensionally equivalent but are defined by well-founded recursion, which a
proof witness cannot evaluate). -/

/-- Code-point lexicographic order on character lists: SQLite's `BINARY`
collation on UTF-8 text, and also Python's `<` on `str`. -/
def charListLt : List Char → List Char → Bool
  | [], [] => false
  | [], _ :: _ => true
  | _ :: _, [] => false
  | c :: cs, d :: ds =>
    if c < d then true
    else if d < c then false
    else charListLt cs ds

def textLt (a b : String) : Bool := charListLt a.data b.data

def textLe (a b : String) : Bool := !(charListLt b.data a.data)

theorem charListLt_irrefl : ∀ a : List Char, charListLt a a = false
  | [] => rfl
  | a :: as => by
    simp only [charListLt, lt_irrefl, if_false]
    exact charListLt_irrefl as

theorem charListLt_trans : ∀ (a b c : List Char),
    charListLt a b = true → charListLt b c = true → charListLt a c = true
  | [], [], _ => by intro h _; simp [charListLt] at h
  | [], _ :: _, [] => by intro _ h; simp [charListLt] at h
  | [], _ :: _, _ :: _ => by intro _ _; simp [charListLt]
  | _ :: _, [], _ => by intro h _; simp [charListLt] at h
  | _ :: _, _ :: _, [] => by intro _ h; simp [charListLt] at h
  | a :: as, b :: bs, c :: cs => by
    intro hab hbc
    simp only [charListLt] at hab hbc ⊢
    by_cases h1 : a < b
    · by_cases h2 : b < c
      · simp [lt_trans h1 h2]
      · by_cases h3 : c < b
        · simp [h2, h3] at hbc
        · have hbceq : b = c := le_antisymm (le_of_not_lt h3) (le_of_not_lt h2)
          subst hbceq
          simp [h1]
    · by_cases h1' : b < a
      · simp [h1, h1'] at hab
      · have haeq : a = b := le_antisymm (le_of_not_lt h1') (le_of_not_lt h1)
        subst haeq
        simp only [lt_irrefl, if_false] at hab
        by_cases h2 : a < c
        · simp [h2]
        · by_cases h3 : c < a
          · simp [h2, h3] at hbc
          · have haceq : a = c := le_antisymm (le_of_not_lt h3) (le_of_not_lt h2)
            subst haceq
            simp only [lt_irrefl, if_false] at hbc ⊢
            exact charListLt_trans as bs cs hab hbc

theorem charListLt_eq_of_not : ∀ (a b : List Char),
    charListLt a b = false → charListLt b a = false → a = b
  | [], [] => by intro _ _; rfl
  | [], _ :: _ => by intro h _; simp [charListLt] at h
  | _ :: _, [] => by intro _ h; simp [charListLt] at h
  | a :: as, b :: bs => by
    intro hab hba
    simp only [charListLt] at hab hba
    by_cases h1 : a < b
    · simp [h1] at hab
    · by_cases h2 : b < a
      · simp [h1, h2] at hba
      · have hab' : charListLt as bs = false := by simpa [h1, h2] using hab
        have hba' : charListLt bs as = false := by simpa [h1, h2] using hba
        have haeq : a = b := le_antisymm (le_of_not_lt h2) (le_of_not_lt h1)
        rw [haeq, charListLt_eq_of_not as bs hab' hba']

theorem charListLt_false_trans (a b c : List Char)
    (h1 : charListLt b a = false) (h2 : charListLt c b = false) :
    charListLt c a = false := by
  by_contra h
  have hca : charListLt c a = true := by simpa using h
  by_cases hab : charListLt a b = true
  · have hcb := charListLt_trans c a b hca hab
    rw [hcb] at h2
    cases h2
  · have heq : a = b := charListLt_eq_of_not a b (by simpa using hab) h1
    rw [heq] at hca
    rw [hca] at h2
    cases h2

theorem textLe_trans (a b c : String) (h1 : textLe a b = true)
    (h2 : textLe b c = true) : textLe a c = true := by
  simp only [textLe, Bool.not_eq_true', Bool.not_eq_false] at *
  exact charListLt_false_trans _ _ _ h1 h2

theorem textLe_total (a b : String) : (textLe a b || textLe b a) = true := by
  simp only [textLe, Bool.or_eq_true, Bool.not_eq_true']
  by_contra h
  push_neg at h
  obtain ⟨x, y⟩ := h
  have hx : charListLt b.data a.data = true := by simpa using x
  have hy : charListLt a.data b.data = true := by simpa using y
  have := charListLt_trans _ _ _ hx hy
  rw [charListLt_irrefl] at this
  cases this

theorem textLt_of_not_textLe {a b : String} (h : ¬ textLe a b = true) :
    textLt b a = true := by
  simpa [textLe] using h

/-- Python's `str.startswith` (and SQL `LIKE 'p%'`): prefix test. -/
def strStarts (s p : String) : Bool := p.data.isPrefixOf s.data

/-- A string cannot start with both `agent.node.` and `agent.tool.`:
the two discriminating name prefixes of the span taxonomy are incompatible. -/
theorem strStarts_node_tool (nm : String)
    (h1 : strStarts nm "agent.node." = true)
    (h2 : strStarts nm "agent.tool." = true) : False := by
  simp only [strStarts, List.isPrefixOf_iff_prefix] at h1 h2
  obtain ⟨t1, e1⟩ := h1
  obtain ⟨t2, e2⟩ := h2
  have e := e1.trans e2.symm
  have hne := (List.append_inj e rfl).1
  revert hne
  decide

/-- Python's `str.lower` restricted to what the code compares (ASCII). -/
def strLower (s : String) : String := String.mk (s.data.map Char.toLower)

/-- Python's `needle in hay` substring test. -/
def listHasSub (needle : List Char) : List Char → Bool
  | [] => needle.isEmpty
  | c :: cs => needle.isPrefixOf (c :: cs) || listHasSub needle cs

def strHasSub (hay needle : String) : Bool := listHasSub needle.data hay.data

/-- Python's `str.replace(pat, rep)` for a non-empty pattern: replace all
non-overlapping occurrences left to right.  The `fuel` argument only makes
the recursion structural; `fuel = length of the input` never runs out
because every step consumes at least one character. -/
def replaceCharsFuel (pat rep : List Char) : Nat → List Char → List Char
  | _, [] => []
  | 0, rest => rest
  | fuel + 1, c :: cs =>
    if pat.isPrefixOf (c :: cs) then
      rep ++ replaceCharsFuel pat rep fuel ((c :: cs).drop pat.length)
    else
      c :: replaceCharsFuel pat rep fuel cs

/-- The degenerate empty pattern is returned unchanged (the code only
strips the non-empty span-name prefixes). -/
def strReplace (s pat rep : String) : String :=
  if pat.data.isEmpty then s
  else String.mk (replaceCharsFuel pat.data rep.data s.data.length s.data)

/-- `", ".join`-style separator interleaving (`json.dumps` default
separators are `", "` and `": "`). -/
def joinSep (sep : String) : List String → String
  | [] => ""
  | [x] => x
  | x :: xs => x ++ sep ++ joinSep sep xs

/-! ## `json.dumps` text rendering

Needed because the size ceiling is enforced on `len(json.dumps(state))`.
`ensure_ascii=True` (the default) escapes control and non-ASCII characters;
characters beyond the basic multilingual plane (which Python encodes as
surrogate pairs) are not modelled. -/

def hexDigitChar (n : Nat) : Char :=
  if n < 10 then Char.ofNat (48 + n) else Char.ofNat (87 + n)

def hex4 (n : Nat) : List Char :=
  [hexDigitChar (n / 4096 % 16), hexDigitChar (n / 256 % 16),
   hexDigitChar (n / 16 % 16), hexDigitChar (n % 16)]

def escapeChar (c : Char) : List Char :=
  if c = '"' then ['\\', '"']
  else if c = '\\' then ['\\', '\\']
  else if c = '\n' then ['\\', 'n']
  else if c = '\t' then ['\\', 't']
  else if c = '\r' then ['\\', 'r']
  else if c.toNat = 8 then ['\\', 'b']
  else if c.toNat = 12 then ['\\', 'f']
  else if c.toNat < 32 ∨ c.toNat > 126 then '\\' :: 'u' :: hex4 c.toNat
  else [c]

def jsonQuote (s : String) : String :=
  "\"" ++ String.mk (s.data.foldr (fun c acc => escapeChar c ++ acc) []) ++ "\""

mutual

def jsonDumps : JVal → String
  | .jnull => "null"
  | .jbool true => "true"
  | .jbool false => "false"
  | .jint n => toString n
  | .jstr s => jsonQuote s
  | .jarr xs => "[" ++ joinSep ", " (jsonDumpsList xs) ++ "]"
  | .jobj fs => "\x7b" ++ joinSep ", " (jsonDumpsEntries fs) ++ "\x7d"

def jsonDumpsList : List JVal → List String
  | [] => []
  | x :: xs => jsonDumps x :: jsonDumpsList xs

def jsonDumpsEntries : List (String × JVal) → List String
  | [] => []
  | (k, v) :: fs => (jsonQuote k ++ ": " ++ jsonDumps v) :: jsonDumpsEntries fs

end

/-! ## Persistent store: the `checkpoints` table

Schema from `db_manager.py`: `PRIMARY KEY (thread_id, checkpoint_id)`,
`checkpoint_data BLOB`, `metadata JSON` (nullable text), `created_at`
ISO-format text.  A table is a row list; `INSERT OR REPLACE` deletes any
row with the conflicting primary key and appends the new row, plain
`INSERT` fails on a primary-key conflict (`IntegrityError`). -/

structure CheckpointRow where
  thread_id : String
  checkpoint_id : String
  checkpoint_ns : String
  checkpoint_data : StateBytes
  parent_checkpoint_id : Option String
  metadata : Option String
  created_at : String

abbrev CheckpointTable := List CheckpointRow

def pkMatches (r : CheckpointRow) (thread_id checkpoint_id : String) : Bool :=
  r.thread_id == thread_id && r.checkpoint_id == checkpoint_id

def insertOrReplace (t : CheckpointTable) (r : CheckpointRow) : CheckpointTable :=
  t.filter (fun q => !(pkMatches q r.thread_id r.checkpoint_id)) ++ [r]

def sqlInsert (t : CheckpointTable) (r : CheckpointRow) : Option CheckpointTable :=
  if t.any (fun q => pkMatches q r.thread_id r.checkpoint_id) then
    none
  else
    some (t ++ [r])

/-- `SELECT ... WHERE thread_id = ? AND checkpoint_id = ?` + `fetchone()`. -/
def selectCheckpoint (t : CheckpointTable) (thread_id checkpoint_id : String) :
    Option CheckpointRow :=
  t.find? (fun r => pkMatches r thread_id checkpoint_id)

/-- Result-order relation of `ORDER BY created_at DESC` under the `BINARY`
text collation: an earlier row's `created_at` is `≥` a later row's. -/
def createdAtDesc (a b : CheckpointRow) : Prop :=
  textLe b.created_at a.created_at = true

instance : DecidableRel createdAtDesc := fun a b =>
  inferInstanceAs (Decidable (textLe b.created_at a.created_at = true))

instance : IsTrans CheckpointRow createdAtDesc :=
  ⟨fun _ b _ h1 h2 => textLe_trans _ b.created_at _ h2 h1⟩

instance : IsTotal CheckpointRow createdAtDesc :=
  ⟨fun a b => by
    rcases Bool.or_eq_true_iff.mp (textLe_total b.created_at a.created_at)
      with h | h
    · exact Or.inl h
    · exact Or.inr h⟩

/-- `ORDER BY created_at DESC`.  A sort ordered by `createdAtDesc`;
the tie order of SQLite's scan is unspecified, and no claim depends on
it. -/
def orderByCreatedAtDesc (rows : CheckpointTable) : CheckpointTable :=
  rows.insertionSort createdAtDesc

namespace SqliteCheckpointer

/-- The parts of a LangGraph `RunnableConfig.configurable` that the
checkpointer reads (each via `.get(...)`, hence optional). -/
structure Config where
  thread_id : Option String := none
  checkpoint_ns : Option String := none
  checkpoint_id : Option String := none

/-- The parts of a LangGraph `Checkpoint` dict that `put` reads. -/
structure CheckpointInput where
  id : Option String
  parent_checkpoint_id : Option String
  channel_values : PyVal

/-- The row `put` writes.  `nowTs` stands for
`str(datetime.now().timestamp())` (the fallback checkpoint id) and
`nowIso` for `datetime.now().isoformat()` (the `created_at` column); the
wall clock is an explicit parameter.  `json.dumps(metadata) if metadata
else None` makes the metadata text `NULL` for a missing or empty
(falsy) dict. -/
def putRow (config : Config) (checkpoint : CheckpointInput)
    (metadata : Option JVal) (nowTs nowIso : String) : CheckpointRow :=
  { thread_id := config.thread_id.getD "default"
    checkpoint_id := checkpoint.id.getD nowTs
    checkpoint_ns := config.checkpoint_ns.getD ""
    checkpoint_data := serialize_state checkpoint.channel_values
    parent_checkpoint_id := checkpoint.parent_checkpoint_id
    metadata :=
      match metadata with
      | none => none
      | some (.jobj []) => none
      | some m => some (jsonDumps m)
    created_at := nowIso }

/-- `put`: serializes `channel_values` and upserts the row. -/
def put (t : CheckpointTable) (config : Config) (checkpoint : CheckpointInput)
    (metadata : Option JVal) (nowTs nowIso : String) : CheckpointTable :=
  insertOrReplace t (putRow config checkpoint metadata nowTs nowIso)

/-- What `aget_tuple` exposes of a row (the `CheckpointTuple`'s checkpoint
dict; the echoed config and the parsed metadata add nothing the claims
touch beyond the raw metadata text kept here). -/
structure CheckpointTupleM where
  id : String
  parent_checkpoint_id : Option String
  channel_values : PyVal
  metadata : Option String

def rowToTuple (row : CheckpointRow) : CheckpointTupleM :=
  { id := row.checkpoint_id
    parent_checkpoint_id := row.parent_checkpoint_id
    channel_values := deserialize_state row.checkpoint_data
    metadata := row.metadata }

/-- `aget_tuple`: `if not checkpoint_id:` takes the latest-row branch, so a
missing — or empty, by Python truthiness — checkpoint id selects
`ORDER BY created_at DESC LIMIT 1`. -/
def aget_tuple (t : CheckpointTable) (config : Config) :
    Option CheckpointTupleM :=
  let thread_id := config.thread_id.getD "default"
  let latest :=
    (orderByCreatedAtDesc
      (t.filter (fun r => r.thread_id == thread_id))).head?.map rowToTuple
  match config.checkpoint_id with
  | none => latest
  | some cid =>
    if cid = "" then latest
    else (selectCheckpoint t thread_id cid).map rowToTuple

/-- The optional `AND created_at < ?` clause: appended only when `before`
is truthy, i.e. a non-empty string (`if before:`). -/
def applyBefore (before : Option String) (base : CheckpointTable) :
    CheckpointTable :=
  match before with
  | some b =>
    if b = "" then base else base.filter (fun r => textLt r.created_at b)
  | none => base

/-- The optional `LIMIT ?` clause: appended only when `limit` is truthy,
i.e. nonzero (`if limit:`); SQLite reads a negative limit as unbounded. -/
def applyLimit (limit : Option Int) (sorted : CheckpointTable) :
    CheckpointTable :=
  match limit with
  | none => sorted
  | some n =>
    if n = 0 then sorted
    else if n < 0 then sorted
    else sorted.take n.toNat

/-- The row list produced by `list`'s SQL query: thread filter, optional
before-filter, `ORDER BY created_at DESC`, optional limit. -/
def list_query (t : CheckpointTable) (thread_id : String)
    (before : Option String) (limit : Option Int) : CheckpointTable :=
  applyLimit limit
    (orderByCreatedAtDesc
      (applyBefore before (t.filter (fun r => r.thread_id == thread_id))))

def list (t : CheckpointTable) (config : Config) (before : Option String)
    (limit : Option Int) : List CheckpointTupleM :=
  (list_query t (config.thread_id.getD "default") before limit).map rowToTuple

/-- The row `create_resume_checkpoint` inserts into the new thread:
checkpoint id `f"{checkpoint_id}_resume_start"`, `parent_checkpoint_id =
NULL`, the (possibly overlaid) state serialized with the internal
serializer (pickle fallback allowed). -/
def resumeRow (original_thread_id checkpoint_id new_thread_id : String)
    (state : PyVal) (description : Option String) (nowIso : String) :
    CheckpointRow :=
  { thread_id := new_thread_id
    checkpoint_id := checkpoint_id ++ "_resume_start"
    checkpoint_ns := ""
    checkpoint_data := serialize_state state
    parent_checkpoint_id := none
    metadata := some (jsonDumps (.jobj
      [("resumed_from_thread", .jstr original_thread_id),
       ("resumed_from_checkpoint", .jstr checkpoint_id),
       ("resume_time", .jstr nowIso),
       ("description",
        .jstr (description.getD "Resumed execution from checkpoint"))]))
    created_at := nowIso }

/-- `create_resume_checkpoint` — the checkpointer-level resume the spec's
Fork Engine describes: load the source checkpoint (`ValueError` if
absent), overlay `modified_state` if truthy, reserialize, and `INSERT`
the result as the single root checkpoint of `new_thread_id`. -/
def create_resume_checkpoint (t : CheckpointTable)
    (original_thread_id checkpoint_id new_thread_id : String)
    (modified_state : Option (List (PyKey × PyVal)))
    (description : Option String) (nowIso : String) :
    Except String (CheckpointTable × String) :=
  match selectCheckpoint t original_thread_id checkpoint_id with
  | none =>
    .error ("Checkpoint " ++ checkpoint_id ++ " not found in thread " ++
      original_thread_id)
  | some row =>
    let state := deserialize_state row.checkpoint_data
    match applyModificationsPy state modified_state with
    | .error e => .error e
    | .ok state2 =>
      match sqlInsert t
        (resumeRow original_thread_id checkpoint_id new_thread_id state2
          description nowIso) with
      | none => .error "IntegrityError"
      | some t2 => .ok (t2, checkpoint_id ++ "_resume_start")

end SqliteCheckpointer

/-! ## Diff engine (`get_checkpoint_diff` in `api/main.py`)

The endpoint iterates `all_keys = set(state_1.keys()) | set(state_2.keys())`
and classifies each key by the `if key not in state_1 / elif key not in
state_2 / elif val1 != val2` ladder.  Python set iteration order is
unspecified, so the union is modelled by a canonical enumeration (keys of
`a`, then keys of `b` not in `a`); the single loop is split into one pass
per result map, each keeping the loop's condition and per-key order.
`dict.get(key)` defaults to `None` for a missing key. -/

def pyContains (d : List (PyKey × PyVal)) (k : PyKey) : Bool :=
  (d.map Prod.fst).contains k

def pyGet (d : List (PyKey × PyVal)) (k : PyKey) : PyVal :=
  match d.find? (fun p => p.1 == k) with
  | some p => p.2
  | none => .pyNone

def unionKeys (a b : List (PyKey × PyVal)) : List PyKey :=
  a.map Prod.fst ++ (b.map Prod.fst).filter (fun k => !(pyContains a k))

def diffAdded (a b : List (PyKey × PyVal)) : List (PyKey × PyVal) :=
  (unionKeys a b).filterMap (fun k =>
    if !(pyContains a k) then some (k, pyGet b k) else none)

def diffRemoved (a b : List (PyKey × PyVal)) : List (PyKey × PyVal) :=
  (unionKeys a b).filterMap (fun k =>
    if pyContains a k && !(pyContains b k) then some (k, pyGet a k) else none)

def diffModified (a b : List (PyKey × PyVal)) :
    List (PyKey × (PyVal × PyVal)) :=
  (unionKeys a b).filterMap (fun k =>
    if pyContains a k && pyContains b k && !(decide (pyGet a k = pyGet b k))
    then some (k, (pyGet a k, pyGet b k)) else none)

structure DiffResult where
  added : List (PyKey × PyVal)
  removed : List (PyKey × PyVal)
  modified : List (PyKey × (PyVal × PyVal))

def get_checkpoint_diff (a b : List (PyKey × PyVal)) : DiffResult :=
  { added := diffAdded a b
    removed := diffRemoved a b
    modified := diffModified a b }

/-! ## Graph reconstruction (`api/graph_builder.py`)

A span row of the `traces` table.  `duration` (float seconds) and the
node's metadata dict are not modelled: no claim depends on them.  The
`status` attribute check reads `attributes.get("status", "")`, a string
in every producer. -/

structure Span where
  trace_id : String
  span_id : String
  parent_span_id : Option String
  name : String
  start_time : String
  end_time : Option String
  attributes : List (String × String)
deriving DecidableEq, Repr

structure NodeModel where
  id : String
  label : String
  type : String
  status : String
  timestamp : String
deriving DecidableEq, Repr

structure EdgeModel where
  source : String
  target : String
  condition : Option String
  label : Option String
deriving DecidableEq, Repr

def attrGet (attrs : List (String × String)) (k dflt : String) : String :=
  match attrs.find? (fun p => p.1 == k) with
  | some p => p.2
  | none => dflt

/-- Status of an `agent.node.*` span: `active` while unterminated, `failed`
when `"error" in attributes.get("status", "").lower()`, else `completed`. -/
def nodeSpanStatus (s : Span) : String :=
  if s.end_time = none then "active"
  else if strHasSub (strLower (attrGet s.attributes "status" "")) "error" then "failed"
  else "completed"

/-- Status of an `agent.tool.*` span: only `active`/`completed` — the tool
branch of `_build_nodes_from_spans` has no error case. -/
def toolSpanStatus (s : Span) : String :=
  if s.end_time = none then "active" else "completed"

def agentNodeOf (s : Span) : NodeModel :=
  { id := s.span_id
    label := strReplace s.name "agent.node." ""
    type := "agent_node"
    status := nodeSpanStatus s
    timestamp := s.start_time }

def toolNodeOf (s : Span) : NodeModel :=
  { id := s.span_id
    label := strReplace s.name "agent.tool." ""
    type := "tool_node"
    status := toolSpanStatus s
    timestamp := s.start_time }

/-- Key set of `node_map` after the first pass: the span ids of all
`agent.node.*` spans (each of which is emitted as a node). -/
def agentSpanIds (spans : List Span) : List String :=
  (spans.filter (fun s => strStarts s.name "agent.node.")).map Span.span_id

/-- `node_map.get(parent_span_id)` is truthy iff the parent span id is a
key of `node_map` (`None` is never a key; node objects are truthy). -/
def parentMatched (agentIds : List String) (s : Span) : Bool :=
  match s.parent_span_id with
  | some p => agentIds.contains p
  | none => false

/-- `_build_nodes_from_spans` (its `checkpoints` parameter is unused in the
source).  First pass: one node per `agent.node.*` span.  Second pass: one
node per `agent.tool.*` span whose parent is in `node_map`. -/
def build_nodes_from_spans (spans : List Span) : List NodeModel :=
  let agentNodes := (spans.filter (fun s => strStarts s.name "agent.node.")).map agentNodeOf
  let agentIds := agentSpanIds spans
  let toolNodes :=
    (spans.filter (fun s =>
      strStarts s.name "agent.tool." && parentMatched agentIds s)).map toolNodeOf
  agentNodes ++ toolNodes

/-- Result-order relation of `list.sort(key=start_time)`: ascending start
times (Python's sort is stable; so is insertion sort). -/
def startTimeAsc (a b : Span) : Prop :=
  textLe a.start_time b.start_time = true

instance : DecidableRel startTimeAsc := fun a b =>
  inferInstanceAs (Decidable (textLe a.start_time b.start_time = true))

/-- Edges between consecutive members of the time-sorted agent-span list
(guarded, as in the source, by both endpoints being valid node ids). -/
def consecutiveEdges (validIds : List String) : List Span → List EdgeModel
  | a :: b :: rest =>
    (if validIds.contains a.span_id && validIds.contains b.span_id then
      [{ source := a.span_id
         target := b.span_id
         condition := some "next"
         label := some "execution" }]
    else []) ++ consecutiveEdges validIds (b :: rest)
  | _ => []

/-- The parent→tool edge a tool-call span contributes, if any: the span
must itself be a valid node and its parent span id must be truthy
(`if parent_span_id and ...`: non-`None`, non-empty) and a valid node
id. -/
def toolEdgeOf (validIds : List String) (s : Span) : Option EdgeModel :=
  if strStarts s.name "agent.tool." && validIds.contains s.span_id then
    match s.parent_span_id with
    | some p =>
      if p != "" && validIds.contains p then
        some { source := p
               target := s.span_id
               condition := none
               label := some (strReplace s.name "agent.tool." "") }
      else none
    | none => none
  else none

/-- `_build_edges_from_spans`.  Sequential edges connect `agent.node.*`
spans sorted by start time (`list.sort` is stable; start times are
non-null strings, so the `datetime.min` fallback for a falsy key never
fires); tool edges connect a valid tool node to its (truthy, valid)
parent. -/
def build_edges_from_spans (spans : List Span) (nodes : List NodeModel) :
    List EdgeModel :=
  let validIds := nodes.map NodeModel.id
  let agentSpans :=
    (spans.filter (fun s =>
      strStarts s.name "agent.node." && validIds.contains s.span_id)).insertionSort
      startTimeAsc
  let seqEdges := consecutiveEdges validIds agentSpans
  let toolEdges := spans.filterMap (toolEdgeOf validIds)
  seqEdges ++ toolEdges

def deduplicate_edges_go (seen : List (String × String)) :
    List EdgeModel → List EdgeModel
  | [] => []
  | e :: rest =>
    if seen.contains (e.source, e.target) then
      deduplicate_edges_go seen rest
    else
      e :: deduplicate_edges_go ((e.source, e.target) :: seen) rest

/-- `_deduplicate_edges`: keep the first edge per `(source, target)`. -/
def deduplicate_edges (edges : List EdgeModel) : List EdgeModel :=
  deduplicate_edges_go [] edges

structure GraphResponse where
  nodes : List NodeModel
  edges : List EdgeModel
  total_checkpoints : Nat
  total_spans : Nat

/-- `build_graph` for one thread: the checkpoint rows only feed the metadata
counts/timestamps, the graph structure comes from the spans. -/
def build_graph (checkpoints : CheckpointTable) (spans : List Span) :
    GraphResponse :=
  let nodes := build_nodes_from_spans spans
  let edges := deduplicate_edges (build_edges_from_spans spans nodes)
  { nodes := nodes
    edges := edges
    total_checkpoints := checkpoints.length
    total_spans := spans.length }

/-! ## API boundary (`api/config.py`, `api/models.py`, `api/main.py`) -/

/-- `TRACELENS_MAX_STATE_SIZE` default: `10 * 1024 * 1024` bytes. -/
def TRACELENS_MAX_STATE_SIZE_DEFAULT : Nat := 10 * 1024 * 1024

/-- A request `state` / `modified_state` object: parsed from the JSON body,
hence a string-keyed map of JSON values. -/
abbrev StateDict := List (String × JVal)

/-- `len(json.dumps(state))` — the quantity the size validators bound.
For an all-ASCII rendering (`ensure_ascii=True`) the character count
equals the UTF-8 byte count. -/
def stateSerializedLen (s : StateDict) : Nat := (jsonDumps (.jobj s)).length

/-- `StateUpdateRequest.validate_state_json_serializable_and_size`: the
`TypeError` branch is unreachable for a body parsed from JSON, so only the
size ceiling can reject. -/
def validate_state_size (maxSize : Nat) (s : StateDict) :
    Except String StateDict :=
  if stateSerializedLen s > maxSize then
    .error ("State size (" ++ toString (stateSerializedLen s) ++
      " bytes) exceeds limit (" ++ toString maxSize ++ " bytes)")
  else .ok s

/-- `validate_modified_state` on `ResumeRequest`/`BranchRequest`. -/
def validate_modified_state (maxSize : Nat) :
    Option StateDict → Except String (Option StateDict)
  | none => .ok none
  | some s =>
    if stateSerializedLen s > maxSize then
      .error ("modified_state size (" ++ toString (stateSerializedLen s) ++
        " bytes) exceeds limit (" ++ toString maxSize ++ " bytes)")
    else .ok (some s)

/-- Outcome of an endpoint call: success payload, a 422 raised at the
Pydantic validation boundary (before the handler body runs), or an
`HTTPException`-style error (the global handler's sanitized 500 included). -/
inductive ApiResponse (α : Type) where
  | ok (payload : α)
  | validationError (detail : String)
  | httpError (code : Nat) (detail : String)

/-- The global exception handler's response body: a fixed sanitized
message; the exception itself is only logged server-side. -/
def sanitized_error_detail : String := "Internal server error. Check logs for details."

/-- `get_graph`'s 500 detail embeds the stringified exception:
`f-string` of `Failed to build graph: ` followed by `str(e)`. -/
def get_graph_error_detail (msg : String) : String :=
  "Failed to build graph: " ++ msg

/-- What every other read endpoint reports when a storage error escapes to
the global handler: the fixed sanitized detail, independent of the error. -/
def global_handler_detail (_msg : String) : String := sanitized_error_detail

/-- JSON body decoded to Python objects (`json.loads` semantics), as an
overlay entry list for `dict.update`. -/
def overlayEntries (m : StateDict) : List (PyKey × PyVal) :=
  m.map (fun p => (PyKey.ks p.1, fromJson p.2))

/-- `if body.modified_state: state.update(body.modified_state)` —
`None` and the empty dict are falsy (no update); `.update` on a non-dict
state raises `AttributeError`. -/
def applyModifications (state : PyVal) (modified : Option StateDict) :
    Except String PyVal :=
  match modified with
  | none => .ok state
  | some m =>
    if m.isEmpty then .ok state
    else pyDictUpdate state (overlayEntries m)

/-- `json.dumps(state).encode('utf-8')` on the API write path (JSON only,
no pickle fallback); raises `TypeError` on unserializable state. -/
def dumpsJsonOnly (state : PyVal) : Except String JVal :=
  match toJson state with
  | some j => .ok j
  | none => .error "TypeError: not JSON serializable"

structure StateUpdatePayload where
  new_checkpoint_id : String

structure ResumePayload where
  new_thread_id : String

structure BranchPayload where
  branch_thread_id : String
  branch_name : String

structure StateUpdateRequest where
  state : StateDict
  description : Option String

structure ResumeRequest where
  from_checkpoint_id : String
  modified_state : Option StateDict
  description : Option String

structure BranchRequest where
  from_checkpoint_id : String
  branch_name : Option String
  modified_state : Option StateDict
  description : Option String

/-- `update_checkpoint_state` handler (after body validation): verify the
source checkpoint exists, then `INSERT` a new checkpoint in the same
thread carrying `body.state` verbatim, parent = the source checkpoint. -/
def update_checkpoint_state (t : CheckpointTable)
    (thread_id checkpoint_id : String) (body : StateUpdateRequest)
    (nowIso uuidHex : String) :
    CheckpointTable × ApiResponse StateUpdatePayload :=
  match selectCheckpoint t thread_id checkpoint_id with
  | none => (t, .httpError 404 "Checkpoint not found")
  | some _ =>
    let new_checkpoint_id := checkpoint_id ++ "_modified_" ++ uuidHex
    let metadata_json := jsonDumps (.jobj
      [("modified_from", .jstr checkpoint_id),
       ("modification_time", .jstr nowIso),
       ("description", .jstr (body.description.getD "State modified via API"))])
    match sqlInsert t
      { thread_id := thread_id
        checkpoint_id := new_checkpoint_id
        checkpoint_ns := ""
        checkpoint_data := .jsonBytes (.jobj body.state)
        parent_checkpoint_id := some checkpoint_id
        metadata := some metadata_json
        created_at := nowIso } with
    | none => (t, .httpError 500 sanitized_error_detail)
    | some t2 => (t2, .ok { new_checkpoint_id := new_checkpoint_id })

/-- The full update-state endpoint: Pydantic validates the body before the
handler runs, so an invalid `state` returns 422 with no handler effect. -/
def update_checkpoint_state_api (maxSize : Nat) (t : CheckpointTable)
    (thread_id checkpoint_id : String) (state : StateDict)
    (description : Option String) (nowIso uuidHex : String) :
    CheckpointTable × ApiResponse StateUpdatePayload :=
  match validate_state_size maxSize state with
  | .error e => (t, .validationError e)
  | .ok s =>
    update_checkpoint_state t thread_id checkpoint_id
      { state := s, description := description } nowIso uuidHex

/-- `resume_execution` evaluates `request.modified_state`, but `request` is
the FastAPI/Starlette HTTP `Request` — which defines no `modified_state`
attribute (the parsed body is `body`, whose `modified_state` field goes
unused) — so the attribute access raises `AttributeError` on every call. -/
def request_attr_modified_state : Except String (Option StateDict) :=
  .error "AttributeError: 'Request' object has no attribute 'modified_state'"

/-- `resume_execution` handler (after body validation): load the source
checkpoint, then evaluate `if request.modified_state:`.  The code after
that access — shown here as the `.ok` branch, mirroring the sibling branch
endpoint — is unreachable: the access itself raises, the global handler
logs it and returns the sanitized 500, and nothing is inserted. -/
def resume_execution (t : CheckpointTable)
    (thread_id checkpoint_id : String) (body : ResumeRequest)
    (nowIso uuidHex : String) :
    CheckpointTable × ApiResponse ResumePayload :=
  match selectCheckpoint t thread_id checkpoint_id with
  | none => (t, .httpError 404 "Checkpoint not found")
  | some row =>
    let state := deserialize_state row.checkpoint_data
    match request_attr_modified_state with
    | .error _ => (t, .httpError 500 sanitized_error_detail)
    | .ok modified =>
      match applyModifications state modified with
      | .error _ => (t, .httpError 500 sanitized_error_detail)
      | .ok state2 =>
        let new_thread_id := thread_id ++ "_resume_" ++ uuidHex
        match dumpsJsonOnly state2 with
        | .error _ => (t, .httpError 500 sanitized_error_detail)
        | .ok j =>
          let resume_metadata := jsonDumps (.jobj
            [("resumed_from_thread", .jstr thread_id),
             ("resumed_from_checkpoint", .jstr checkpoint_id),
             ("resume_time", .jstr nowIso),
             ("description",
              .jstr (body.description.getD "Resumed execution from checkpoint"))])
          match sqlInsert t
            { thread_id := new_thread_id
              checkpoint_id := checkpoint_id ++ "_resume_start"
              checkpoint_ns := ""
              checkpoint_data := .jsonBytes j
              parent_checkpoint_id := none
              metadata := some resume_metadata
              created_at := nowIso } with
          | none => (t, .httpError 500 sanitized_error_detail)
          | some t2 => (t2, .ok { new_thread_id := new_thread_id })

/-- The full resume endpoint: Pydantic validation of `modified_state`
precedes the handler. -/
def resume_execution_api (maxSize : Nat) (t : CheckpointTable)
    (thread_id checkpoint_id : String) (body : ResumeRequest)
    (nowIso uuidHex : String) :
    CheckpointTable × ApiResponse ResumePayload :=
  match validate_modified_state maxSize body.modified_state with
  | .error e => (t, .validationError e)
  | .ok m =>
    resume_execution t thread_id checkpoint_id
      { body with modified_state := m } nowIso uuidHex

/-- `create_branch` handler (after body validation): load the source
checkpoint, overlay `body.modified_state` (shallow merge), and insert the
result as the single root checkpoint (`parent = NULL`) of the branch
thread `f"{thread_id}_{branch_name}"`. -/
def create_branch (t : CheckpointTable)
    (thread_id checkpoint_id : String) (body : BranchRequest)
    (nowIso uuidHex : String) :
    CheckpointTable × ApiResponse BranchPayload :=
  match selectCheckpoint t thread_id checkpoint_id with
  | none => (t, .httpError 404 "Checkpoint not found")
  | some row =>
    let state := deserialize_state row.checkpoint_data
    match applyModifications state body.modified_state with
    | .error _ => (t, .httpError 500 sanitized_error_detail)
    | .ok state2 =>
      let branch_name :=
        match body.branch_name with
        | some n => if n = "" then "branch_" ++ uuidHex else n
        | none => "branch_" ++ uuidHex
      let branch_thread_id := thread_id ++ "_" ++ branch_name
      match dumpsJsonOnly state2 with
      | .error _ => (t, .httpError 500 sanitized_error_detail)
      | .ok j =>
        let branch_metadata := jsonDumps (.jobj
          [("branched_from_thread", .jstr thread_id),
           ("branched_from_checkpoint", .jstr checkpoint_id),
           ("branch_name", .jstr branch_name),
           ("branch_time", .jstr nowIso),
           ("description",
            .jstr (body.description.getD
              ("Branch '" ++ branch_name ++ "' from checkpoint")))])
        match sqlInsert t
          { thread_id := branch_thread_id
            checkpoint_id := checkpoint_id ++ "_branch_start"
            checkpoint_ns := ""
            checkpoint_data := .jsonBytes j
            parent_checkpoint_id := none
            metadata := some branch_metadata
            created_at := nowIso } with
        | none => (t, .httpError 500 sanitized_error_detail)
        | some t2 =>
          (t2, .ok { branch_thread_id := branch_thread_id
                     branch_name := branch_name })

/-- The full branch endpoint: Pydantic validation of `modified_state`
precedes the handler. -/
def create_branch_api (maxSize : Nat) (t : CheckpointTable)
    (thread_id checkpoint_id : String) (body : BranchRequest)
    (nowIso uuidHex : String) :
    CheckpointTable × ApiResponse BranchPayload :=
  match validate_modified_state maxSize body.modified_state with
  | .error e => (t, .validationError e)
  | .ok m =>
    create_branch t thread_id checkpoint_id
      { body with modified_state := m } nowIso uuidHex

/-! ## Concrete example data (used by counterexamples and witnesses) -/

def exRow : CheckpointRow :=
  { thread_id := "t"
    checkpoint_id := "c"
    checkpoint_ns := ""
    checkpoint_data := .jsonBytes (.jobj [("step", .jint 0)])
    parent_checkpoint_id := none
    metadata := none
    created_at := "2024-01-01T00:00:00" }

def exTable : CheckpointTable := [exRow]

/-- A JSON-serializable Python state whose dict key is the integer `1`:
`json.dumps` coerces the key to the string `"1"`. -/
def exIntKeyState : PyVal := .pyDict [(.ki 1, .pyStr "a")]

def exResumeBody : ResumeRequest :=
  { from_checkpoint_id := "c", modified_state := none, description := none }

def exBranchBody : BranchRequest :=
  { from_checkpoint_id := "c"
    branch_name := none
    modified_state := none
    description := none }

def exAgentSpan : Span :=
  { trace_id := "tr"
    span_id := "a1"
    parent_span_id := none
    name := "agent.node.plan"
    start_time := "2024-01-01T00:00:00"
    end_time := some "2024-01-01T00:00:01"
    attributes := [] }

/-- A finished tool-call span whose attributes indicate an error status,
parented on `exAgentSpan`. -/
def exToolSpanErr : Span :=
  { trace_id := "tr"
    span_id := "t1"
    parent_span_id := some "a1"
    name := "agent.tool.web_search"
    start_time := "2024-01-01T00:00:00.500"
    end_time := some "2024-01-01T00:00:00.900"
    attributes := [("status", "error")] }

def exSpans : List Span := [exAgentSpan, exToolSpanErr]

/-- A tool-call span whose parent span id matches no node-execution span. -/
def exOrphanToolSpan : Span :=
  { trace_id := "tr"
    span_id := "t9"
    parent_span_id := some "zz"
    name := "agent.tool.web_search"
    start_time := "2024-01-01T00:00:00.600"
    end_time := some "2024-01-01T00:00:00.700"
    attributes := [] }

def exSpansOrphan : List Span := [exAgentSpan, exOrphanToolSpan]

/-! ## Generic list helpers -/

theorem contains_iff_mem {α : Type} [DecidableEq α] (l : List α) (x : α) :
    l.contains x = true ↔ x ∈ l := by
  simp

theorem filterMap_if_none {α β : Type} (p : α → Bool) (g : α → β)
    (l : List α) (h : ∀ x ∈ l, p x = false) :
    l.filterMap (fun x => if p x then some (g x) else none) = [] := by
  rw [List.filterMap_eq_nil_iff]
  intro x hx
  rw [h x hx]
  simp

theorem filterMap_if_all_some {α β : Type} (p : α → Bool) (g : α → β)
    (l : List α) (h : ∀ x ∈ l, p x = true) :
    l.filterMap (fun x => if p x then some (g x) else none) = l.map g := by
  induction l with
  | nil => rfl
  | cons x xs ih =>
    rw [List.filterMap_cons, h x (by simp), List.map_cons,
      ih (fun y hy => h y (by simp [hy]))]
    simp

theorem filterMap_if_eq_map_filter {α β : Type} (p : α → Bool) (g : α → β)
    (l : List α) :
    l.filterMap (fun x => if p x then some (g x) else none) =
      (l.filter p).map g := by
  induction l with
  | nil => rfl
  | cons x xs ih =>
    by_cases hp : p x = true
    · rw [List.filterMap_cons, hp, List.filter_cons_of_pos hp, List.map_cons, ih]
      simp
    · rw [List.filterMap_cons, List.filter_cons_of_neg (by simpa using hp), ih]
      simp [hp]

/-! ## C5/C6: diff engine properties -/

theorem mem_unionKeys {a b : List (PyKey × PyVal)} {k : PyKey} :
    k ∈ unionKeys a b ↔ pyContains a k = true ∨ pyContains b k = true := by
  simp only [unionKeys, pyContains, List.mem_append, List.mem_filter,
    contains_iff_mem, Bool.not_eq_true']
  constructor
  · rintro (h | ⟨h, _⟩)
    · exact Or.inl h
    · exact Or.inr h
  · rintro (h | h)
    · exact Or.inl h
    · by_cases ha : k ∈ a.map Prod.fst
      · exact Or.inl ha
      · exact Or.inr ⟨h, by simpa using ha⟩

theorem mem_diffAdded {a b : List (PyKey × PyVal)} {k : PyKey} {v : PyVal} :
    (k, v) ∈ diffAdded a b ↔
      pyContains a k = false ∧ pyContains b k = true ∧ v = pyGet b k := by
  simp only [diffAdded, List.mem_filterMap]
  constructor
  · rintro ⟨k1, hk1, hf⟩
    by_cases hc : pyContains a k1 = true
    · simp [hc] at hf
    · have hc' : pyContains a k1 = false := by simpa using hc
      simp only [hc', Bool.not_false, if_true, Option.some.injEq,
        Prod.mk.injEq] at hf
      obtain ⟨hk, hv⟩ := hf
      subst hk
      rcases mem_unionKeys.mp hk1 with h | h
      · rw [h] at hc'; cases hc'
      · exact ⟨hc', h, hv.symm⟩
  · rintro ⟨ha, hb, hv⟩
    refine ⟨k, mem_unionKeys.mpr (Or.inr hb), ?_⟩
    rw [ha, hv]
    simp

theorem mem_diffRemoved {a b : List (PyKey × PyVal)} {k : PyKey} {v : PyVal} :
    (k, v) ∈ diffRemoved a b ↔
      pyContains a k = true ∧ pyContains b k = false ∧ v = pyGet a k := by
  simp only [diffRemoved, List.mem_filterMap]
  constructor
  · rintro ⟨k1, hk1, hf⟩
    by_cases hc : (pyContains a k1 && !(pyContains b k1)) = true
    · simp only [hc, if_true, Option.some.injEq, Prod.mk.injEq] at hf
      obtain ⟨hk, hv⟩ := hf
      subst hk
      simp only [Bool.and_eq_true, Bool.not_eq_true'] at hc
      exact ⟨hc.1, hc.2, hv.symm⟩
    · simp only [Bool.not_eq_true] at hc
      rw [hc] at hf
      simp at hf
  · rintro ⟨ha, hb, hv⟩
    refine ⟨k, mem_unionKeys.mpr (Or.inl ha), ?_⟩
    rw [ha, hb, hv]
    simp

theorem mem_diffModified {a b : List (PyKey × PyVal)} {k : PyKey}
    {p : PyVal × PyVal} :
    (k, p) ∈ diffModified a b ↔
      pyContains a k = true ∧ pyContains b k = true ∧
      pyGet a k ≠ pyGet b k ∧ p = (pyGet a k, pyGet b k) := by
  simp only [diffModified, List.mem_filterMap]
  constructor
  · rintro ⟨k1, hk1, hf⟩
    by_cases hc :
        (pyContains a k1 && (pyContains b k1 &&
          !(decide (pyGet a k1 = pyGet b k1)))) = true
    · simp only [Bool.and_assoc] at hf
      simp only [Bool.and_assoc, hc, if_true, Option.some.injEq,
        Prod.mk.injEq] at hf
      obtain ⟨hk, hv⟩ := hf
      subst hk
      simp only [Bool.and_eq_true, Bool.not_eq_true', decide_eq_false_iff_not]
        at hc
      exact ⟨hc.1, hc.2.1, hc.2.2, hv.symm⟩
    · simp only [Bool.not_eq_true] at hc
      simp only [Bool.and_assoc] at hf
      rw [hc] at hf
      simp at hf
  · rintro ⟨ha, hb, hne, hp⟩
    refine ⟨k, mem_unionKeys.mpr (Or.inl ha), ?_⟩
    rw [ha, hb, hp]
    simp [hne]

/-- C5.  `get_checkpoint_diff` classifies every top-level key of the union
of the two states: a key only in `b` lands in `added` with `b`'s value, a
key only in `a` lands in `removed` with `a`'s value, a key in both with
unequal values lands in `modified` with the whole old/new value pair (the
comparison never recurses: the `modified` entry is exactly the pair of
complete top-level values), and a key with equal values appears in none of
the three maps. -/
theorem diff_key_classification :
    ∀ (a b : List (PyKey × PyVal)) (k : PyKey),
      (∀ v, (k, v) ∈ (get_checkpoint_diff a b).added ↔
        pyContains a k = false ∧ pyContains b k = true ∧ v = pyGet b k) ∧
      (∀ v, (k, v) ∈ (get_checkpoint_diff a b).removed ↔
        pyContains a k = true ∧ pyContains b k = false ∧ v = pyGet a k) ∧
      (∀ p, (k, p) ∈ (get_checkpoint_diff a b).modified ↔
        pyContains a k = true ∧ pyContains b k = true ∧
        pyGet a k ≠ pyGet b k ∧ p = (pyGet a k, pyGet b k)) ∧
      (pyContains a k = true → pyContains b k = true → pyGet a k = pyGet b k →
        (∀ v, (k, v) ∉ (get_checkpoint_diff a b).added) ∧
        (∀ v, (k, v) ∉ (get_checkpoint_diff a b).removed) ∧
        (∀ p, (k, p) ∉ (get_checkpoint_diff a b).modified)) := by
  intro a b k
  refine ⟨fun v => mem_diffAdded, fun v => mem_diffRemoved,
    fun p => mem_diffModified, fun ha hb heq => ⟨?_, ?_, ?_⟩⟩
  · intro v hv
    obtain ⟨ha', _, _⟩ := mem_diffAdded.mp hv
    rw [ha] at ha'
    cases ha'
  · intro v hv
    obtain ⟨_, hb', _⟩ := mem_diffRemoved.mp hv
    rw [hb] at hb'
    cases hb'
  · intro p hp
    obtain ⟨_, _, hne, _⟩ := mem_diffModified.mp hp
    exact hne heq

theorem diffAdded_eq_canonical (a b : List (PyKey × PyVal)) :
    diffAdded a b =
      ((b.map Prod.fst).filter (fun k => !(pyContains a k))).map
        (fun k => (k, pyGet b k)) := by
  unfold diffAdded unionKeys
  rw [List.filterMap_append]
  rw [filterMap_if_none _ _ (a.map Prod.fst)
    (fun k hk => by simp [pyContains, contains_iff_mem, hk])]
  rw [filterMap_if_all_some _ _ _
    (fun k hk => by
      have := (List.mem_filter.mp hk).2
      simpa using this)]
  simp

theorem diffRemoved_eq_canonical (a b : List (PyKey × PyVal)) :
    diffRemoved a b =
      ((a.map Prod.fst).filter (fun k => !(pyContains b k))).map
        (fun k => (k, pyGet a k)) := by
  unfold diffRemoved unionKeys
  rw [List.filterMap_append]
  have h2 :
      ((b.map Prod.fst).filter (fun k => !(pyContains a k))).filterMap
        (fun k => if pyContains a k && !(pyContains b k)
          then some (k, pyGet a k) else none) = [] := by
    rw [List.filterMap_eq_nil_iff]
    intro k hk
    have := (List.mem_filter.mp hk).2
    simp only [Bool.not_eq_true'] at this
    simp [this]
  rw [h2, List.append_nil]
  have h1 :
      (a.map Prod.fst).filterMap
        (fun k => if pyContains a k && !(pyContains b k)
          then some (k, pyGet a k) else none) =
      (a.map Prod.fst).filterMap
        (fun k => if !(pyContains b k) then some (k, pyGet a k) else none) := by
    apply List.filterMap_congr
    intro k hk
    have : pyContains a k = true := by
      simp [pyContains, contains_iff_mem, hk]
    rw [this]
    simp
  rw [h1, filterMap_if_eq_map_filter]

/-- C6.  Diff is symmetric in structure — `diff(A,B).added` coincides with
`diff(B,A).removed` and vice versa (as the same key/value list under the
canonical union enumeration) — and `diff(A,A)` is empty in all three
maps. -/
theorem diff_symmetric_and_diagonal_empty :
    ∀ a b : List (PyKey × PyVal),
      (get_checkpoint_diff a b).added = (get_checkpoint_diff b a).removed ∧
      (get_checkpoint_diff a b).removed = (get_checkpoint_diff b a).added ∧
      (get_checkpoint_diff a a).added = [] ∧
      (get_checkpoint_diff a a).removed = [] ∧
      (get_checkpoint_diff a a).modified = [] := by
  intro a b
  have hadd : ∀ x y : List (PyKey × PyVal), diffAdded x y = diffRemoved y x := by
    intro x y
    rw [diffAdded_eq_canonical, diffRemoved_eq_canonical]
  have hdiagA : diffAdded a a = [] := by
    rw [diffAdded_eq_canonical]
    have : (a.map Prod.fst).filter (fun k => !(pyContains a k)) = [] := by
      rw [List.filter_eq_nil_iff]
      intro k hk
      simp [pyContains, contains_iff_mem, hk]
    rw [this]
    rfl
  have hdiagM : diffModified a a = [] := by
    unfold diffModified
    rw [List.filterMap_eq_nil_iff]
    intro k _
    simp
  refine ⟨hadd a b, (hadd b a).symm, hdiagA, ?_, hdiagM⟩
  show diffRemoved a a = []
  rw [← hadd a a, hdiagA]

/-! ## C9: storage-error sanitization on the read path -/

/-- C9 counterexample.  The graph endpoint's 500 response embeds the
stringified storage exception: for a concrete internal message, the
reported detail contains that message verbatim and differs from the global
handler's sanitized detail (and the detail varies with the internal
message, so it is not sanitized). -/
theorem get_graph_detail_leaks_internal_error :
    strHasSub (get_graph_error_detail "database is locked")
      "database is locked" = true ∧
    get_graph_error_detail "database is locked" ≠ sanitized_error_detail ∧
    get_graph_error_detail "unable to open database file" ≠
      get_graph_error_detail "database is locked" := by
  refine ⟨by decide, by decide, by decide⟩

/-- C9 amended.  Read endpoints without a local handler report storage
errors through the global exception handler, whose detail is the fixed
sanitized string for every internal message; the graph endpoint is the
exception — its 500 detail is the prefix `Failed to build graph: `
followed by the internal exception text. -/
theorem read_endpoint_error_reporting :
    (∀ m1 m2 : String,
      global_handler_detail m1 = global_handler_detail m2 ∧
      global_handler_detail m1 = sanitized_error_detail) ∧
    (∀ msg : String,
      get_graph_error_detail msg = "Failed to build graph: " ++ msg) :=
  ⟨fun _ _ => ⟨rfl, rfl⟩, fun _ => rfl⟩

/-! ## C3: `list` ordering, limit and before-filter -/

namespace SqliteCheckpointer

theorem applyLimit_sorted (limit : Option Int) (l : CheckpointTable)
    (h : List.Sorted createdAtDesc l) :
    List.Sorted createdAtDesc (applyLimit limit l) := by
  cases limit with
  | none => exact h
  | some n =>
    unfold applyLimit
    by_cases h0 : n = 0
    · simpa [h0] using h
    · by_cases hneg : n < 0
      · simpa [h0, hneg] using h
      · simp only [h0, hneg, if_false]
        exact List.Pairwise.sublist (List.take_sublist _ _) h

theorem mem_applyLimit {limit : Option Int} {l : CheckpointTable}
    {r : CheckpointRow} (h : r ∈ applyLimit limit l) : r ∈ l := by
  cases limit with
  | none => exact h
  | some n =>
    unfold applyLimit at h
    by_cases h0 : n = 0
    · simpa [h0] using h
    · by_cases hneg : n < 0
      · simpa [h0, hneg] using h
      · simp only [h0, hneg, if_false] at h
        exact (List.take_sublist _ _).subset h

theorem mem_orderByCreatedAtDesc {l : CheckpointTable} {r : CheckpointRow} :
    r ∈ orderByCreatedAtDesc l ↔ r ∈ l :=
  (List.perm_insertionSort createdAtDesc l).mem_iff

theorem mem_applyBefore {before : Option String} {base : CheckpointTable}
    {r : CheckpointRow} (h : r ∈ applyBefore before base) :
    ∀ b, before = some b → b ≠ "" → textLt r.created_at b = true := by
  intro b hb hne
  subst hb
  simp only [applyBefore, if_neg hne] at h
  exact (List.mem_filter.mp h).2

/-- C3 amended.  `list` returns checkpoints in non-increasing `created_at`
order; a *positive* `limit=N` returns at most N rows; a *non-empty*
`before=T` returns only rows with `created_at < T` (SQLite text order).
The amendment is forced by Python truthiness at the query builder:
`limit=0` and `before=""` are falsy, so their clauses are skipped rather
than applied (see the counterexample). -/
theorem list_order_limit_before :
    ∀ (t : CheckpointTable) (config : SqliteCheckpointer.Config)
      (before : Option String) (limit : Option Int),
      List.Sorted createdAtDesc
        (list_query t (config.thread_id.getD "default") before limit) ∧
      SqliteCheckpointer.list t config before limit =
        (list_query t (config.thread_id.getD "default") before limit).map
          rowToTuple ∧
      (∀ n : Int, 1 ≤ n →
        (SqliteCheckpointer.list t config before (some n)).length ≤ n.toNat) ∧
      (∀ b, before = some b → b ≠ "" →
        ∀ r ∈ list_query t (config.thread_id.getD "default") before limit,
          textLt r.created_at b = true) := by
  intro t config before limit
  refine ⟨?_, rfl, ?_, ?_⟩
  · exact applyLimit_sorted limit _ (List.sorted_insertionSort createdAtDesc _)
  · intro n hn
    have h0 : ¬(n = 0) := by omega
    have hneg : ¬(n < 0) := by omega
    simp only [SqliteCheckpointer.list, List.length_map, list_query,
      applyLimit, h0, hneg, if_false]
    exact List.length_take_le _ _
  · intro b hb hne r hr
    exact mem_applyBefore
      (mem_orderByCreatedAtDesc.mp (mem_applyLimit hr)) b hb hne

/-- C3 counterexample.  The claim quantifies over every `N` and every
timestamp `T`, but `limit=0` is falsy in Python (`if limit:`), so the
`LIMIT` clause is skipped and a one-checkpoint thread yields 1 > 0 rows;
likewise `before=""` is falsy, so the before-filter is skipped and the
returned row's `created_at` is not `< ""`. -/
theorem list_limit_zero_before_empty_violate_claim :
    (SqliteCheckpointer.list exTable { thread_id := some "t" } none
      (some 0)).length = 1 ∧
    ¬((SqliteCheckpointer.list exTable { thread_id := some "t" } none
      (some 0)).length ≤ 0) ∧
    list_query exTable "t" (some "") none = [exRow] ∧
    textLt exRow.created_at "" = false := by
  refine ⟨rfl, by decide, rfl, rfl⟩

end SqliteCheckpointer

/-! ## C4/C8: append/get round-trip and upsert semantics -/

theorem pkMatches_self (r : CheckpointRow) :
    pkMatches r r.thread_id r.checkpoint_id = true := by
  simp [pkMatches]

theorem selectCheckpoint_insertOrReplace (t : CheckpointTable)
    (row : CheckpointRow) :
    selectCheckpoint (insertOrReplace t row) row.thread_id row.checkpoint_id =
      some row := by
  unfold selectCheckpoint insertOrReplace
  rw [List.find?_append]
  have h1 : (t.filter fun q =>
      !(pkMatches q row.thread_id row.checkpoint_id)).find?
      (fun r => pkMatches r row.thread_id row.checkpoint_id) = none := by
    rw [List.find?_eq_none]
    intro x hx
    have hfx := (List.mem_filter.mp hx).2
    simp only [Bool.not_eq_true'] at hfx
    simp [hfx]
  rw [h1]
  simp [List.find?_cons, pkMatches_self]

theorem insertOrReplace_pk_unique (t : CheckpointTable) (row : CheckpointRow) :
    (insertOrReplace t row).filter
      (fun r => pkMatches r row.thread_id row.checkpoint_id) = [row] := by
  unfold insertOrReplace
  rw [List.filter_append]
  have h1 : (t.filter fun q =>
      !(pkMatches q row.thread_id row.checkpoint_id)).filter
      (fun r => pkMatches r row.thread_id row.checkpoint_id) = [] := by
    rw [List.filter_eq_nil_iff]
    intro x hx
    have hfx := (List.mem_filter.mp hx).2
    simp only [Bool.not_eq_true'] at hfx
    simp [hfx]
  rw [h1]
  simp [pkMatches_self]

theorem insertOrReplace_pk_count (t : CheckpointTable) (row : CheckpointRow)
    (tid cid : String) (h1 : row.thread_id = tid)
    (h2 : row.checkpoint_id = cid) :
    (insertOrReplace t row).filter (fun r => pkMatches r tid cid) = [row] := by
  subst h1
  subst h2
  exact insertOrReplace_pk_unique t row

/-- `get` by id directly after `put` sees exactly the row `put` wrote. -/
theorem aget_after_put (t : CheckpointTable)
    (config : SqliteCheckpointer.Config)
    (cp : SqliteCheckpointer.CheckpointInput) (metadata : Option JVal)
    (nowTs nowIso cid : String) (hid : cp.id = some cid) (hne : cid ≠ "") :
    SqliteCheckpointer.aget_tuple
      (SqliteCheckpointer.put t config cp metadata nowTs nowIso)
      { config with checkpoint_id := some cid } =
    some (SqliteCheckpointer.rowToTuple
      (SqliteCheckpointer.putRow config cp metadata nowTs nowIso)) := by
  have h2 : (SqliteCheckpointer.putRow config cp metadata nowTs nowIso).checkpoint_id
      = cid := by
    simp [SqliteCheckpointer.putRow, hid]
  simp only [SqliteCheckpointer.aget_tuple, SqliteCheckpointer.put]
  rw [if_neg hne]
  have h1 : selectCheckpoint
      (insertOrReplace t (SqliteCheckpointer.putRow config cp metadata nowTs nowIso))
      (config.thread_id.getD "default") cid =
      some (SqliteCheckpointer.putRow config cp metadata nowTs nowIso) := by
    rw [← h2]
    exact selectCheckpoint_insertOrReplace t _
  rw [h1]
  rfl

/-- C4 amended.  `get(thread_id, checkpoint_id)` immediately after `append`
returns a state structurally equal to what was written, for every state
whose dicts carry (pairwise-distinct) string keys at every level — and also
for every state with no JSON rendering at all, via the pickle fallback.
The restriction is forced by `json.dumps`: a JSON-serializable dict with a
non-string key comes back with the key coerced to its string form (see the
counterexample). -/
theorem put_then_get_roundtrip :
    ∀ (t : CheckpointTable) (config : SqliteCheckpointer.Config)
      (cp : SqliteCheckpointer.CheckpointInput) (metadata : Option JVal)
      (nowTs nowIso cid : String),
      cp.id = some cid → cid ≠ "" → stateWF cp.channel_values = true →
      (SqliteCheckpointer.aget_tuple
        (SqliteCheckpointer.put t config cp metadata nowTs nowIso)
        { config with checkpoint_id := some cid }).map
          (fun tup => tup.channel_values) = some cp.channel_values := by
  intro t config cp metadata nowTs nowIso cid hid hne hwf
  rw [aget_after_put t config cp metadata nowTs nowIso cid hid hne]
  simp only [Option.map_some, SqliteCheckpointer.rowToTuple,
    SqliteCheckpointer.putRow]
  rw [deserialize_serialize cp.channel_values hwf]
  rfl

/-- C4 witness: a string-keyed state round-trips through `put`/`get`. -/
theorem put_then_get_roundtrip_witness :
    stateWF (.pyDict [(.ks "query", .pyStr "hello")]) = true ∧
    (SqliteCheckpointer.aget_tuple
      (SqliteCheckpointer.put [] {}
        { id := some "ck-1"
          parent_checkpoint_id := none
          channel_values := .pyDict [(.ks "query", .pyStr "hello")] }
        none "1.0" "2024-01-01T00:00:00")
      { checkpoint_id := some "ck-1" }).map (fun tup => tup.channel_values) =
      some (.pyDict [(.ks "query", .pyStr "hello")]) :=
  ⟨by decide,
    put_then_get_roundtrip [] {}
      { id := some "ck-1"
        parent_checkpoint_id := none
        channel_values := .pyDict [(.ks "query", .pyStr "hello")] }
      none "1.0" "2024-01-01T00:00:00" "ck-1" rfl (by decide) (by decide)⟩

/-- C4 counterexample.  The JSON-serializable state with the integer dict
key `1` is written via `json.dumps`, which renders the key as the string
`"1"`; the immediate `get` returns the dict keyed by the string `"1"`,
not the state that was written. -/
theorem put_then_get_coerces_int_key :
    (SqliteCheckpointer.aget_tuple
      (SqliteCheckpointer.put [] {}
        { id := some "c"
          parent_checkpoint_id := none
          channel_values := exIntKeyState }
        none "100.0" "2024-01-01T00:00:00")
      { checkpoint_id := some "c" }).map (fun tup => tup.channel_values) =
      some (.pyDict [(.ks "1", .pyStr "a")]) ∧
    PyVal.pyDict [(.ks "1", .pyStr "a")] ≠ exIntKeyState := by
  refine ⟨rfl, by decide⟩

/-- C8.  An append whose `(thread_id, checkpoint_id)` already exists does
not fail — `put` upserts by construction (`INSERT OR REPLACE`) and is a
total function — the second write replaces the first row (exactly one row
with that key remains), and a subsequent `get` returns the second write's
state: last-writer-wins. -/
theorem put_upsert_last_writer_wins :
    ∀ (t : CheckpointTable) (config : SqliteCheckpointer.Config)
      (cp1 cp2 : SqliteCheckpointer.CheckpointInput) (m1 m2 : Option JVal)
      (ts1 iso1 ts2 iso2 cid : String),
      cp1.id = some cid → cp2.id = some cid → cid ≠ "" →
      stateWF cp2.channel_values = true →
      ((SqliteCheckpointer.put
          (SqliteCheckpointer.put t config cp1 m1 ts1 iso1)
          config cp2 m2 ts2 iso2).filter
        (fun r => pkMatches r (config.thread_id.getD "default") cid)).length
        = 1 ∧
      (SqliteCheckpointer.aget_tuple
        (SqliteCheckpointer.put
          (SqliteCheckpointer.put t config cp1 m1 ts1 iso1)
          config cp2 m2 ts2 iso2)
        { config with checkpoint_id := some cid }).map
          (fun tup => tup.channel_values) = some cp2.channel_values := by
  intro t config cp1 cp2 m1 m2 ts1 iso1 ts2 iso2 cid hid1 hid2 hne hwf
  constructor
  · show ((SqliteCheckpointer.put _ config cp2 m2 ts2 iso2).filter _).length = 1
    simp only [SqliteCheckpointer.put]
    rw [insertOrReplace_pk_count _
      (SqliteCheckpointer.putRow config cp2 m2 ts2 iso2)
      (config.thread_id.getD "default") cid rfl
      (by simp [SqliteCheckpointer.putRow, hid2])]
    rfl
  · rw [aget_after_put _ config cp2 m2 ts2 iso2 cid hid2 hne]
    simp only [Option.map_some, SqliteCheckpointer.rowToTuple,
      SqliteCheckpointer.putRow]
    rw [deserialize_serialize cp2.channel_values hwf]
    rfl

/-- C8 witness: two writes to the same `(thread, id)`; the read sees the
second state and exactly one row with that key remains. -/
theorem put_upsert_witness :
    ((SqliteCheckpointer.put
        (SqliteCheckpointer.put [] { thread_id := some "t" }
          { id := some "c"
            parent_checkpoint_id := none
            channel_values := .pyDict [(.ks "step", .pyInt 0)] }
          none "1.0" "2024-01-01T00:00:00")
        { thread_id := some "t" }
        { id := some "c"
          parent_checkpoint_id := none
          channel_values := .pyDict [(.ks "step", .pyInt 1)] }
        none "2.0" "2024-01-01T00:00:01").filter
      (fun r => pkMatches r "t" "c")).length = 1 ∧
    (SqliteCheckpointer.aget_tuple
      (SqliteCheckpointer.put
        (SqliteCheckpointer.put [] { thread_id := some "t" }
          { id := some "c"
            parent_checkpoint_id := none
            channel_values := .pyDict [(.ks "step", .pyInt 0)] }
          none "1.0" "2024-01-01T00:00:00")
        { thread_id := some "t" }
        { id := some "c"
          parent_checkpoint_id := none
          channel_values := .pyDict [(.ks "step", .pyInt 1)] }
        none "2.0" "2024-01-01T00:00:01")
      { thread_id := some "t", checkpoint_id := some "c" }).map
        (fun tup => tup.channel_values) =
      some (.pyDict [(.ks "step", .pyInt 1)]) :=
  put_upsert_last_writer_wins [] { thread_id := some "t" }
    { id := some "c"
      parent_checkpoint_id := none
      channel_values := .pyDict [(.ks "step", .pyInt 0)] }
    { id := some "c"
      parent_checkpoint_id := none
      channel_values := .pyDict [(.ks "step", .pyInt 1)] }
    none none "1.0" "2024-01-01T00:00:00" "2.0" "2024-01-01T00:00:01" "c"
    rfl rfl (by decide) (by decide)

/-! ## Shallow-merge characterization of `dict.update` -/

theorem pyGet_cons (k0 : PyKey) (v0 : PyVal) (rest : List (PyKey × PyVal))
    (k : PyKey) :
    pyGet ((k0, v0) :: rest) k = if k0 = k then v0 else pyGet rest k := by
  by_cases h : k0 = k
  · unfold pyGet
    rw [List.find?_cons_of_pos _ (by simp [h]), if_pos h]
  · unfold pyGet
    rw [List.find?_cons_of_neg _ (by simp [h]), if_neg h]

theorem find?_map_replace (es : List (PyKey × PyVal)) (k : PyKey) (v : PyVal)
    (hc : k ∈ es.map Prod.fst) :
    (es.map (fun p => if p.1 = k then (k, v) else p)).find?
      (fun p => p.1 == k) = some (k, v) := by
  induction es with
  | nil => simp at hc
  | cons p rest ih =>
    obtain ⟨k0, v0⟩ := p
    by_cases hk : k0 = k
    · simp only [List.map_cons, if_pos (show (k0, v0).1 = k from hk)]
      rw [List.find?_cons_of_pos _ (by simp)]
    · have hc2 : k ∈ rest.map Prod.fst := by
        rw [List.map_cons] at hc
        rcases List.mem_cons.mp hc with h | h
        · exact absurd h.symm hk
        · exact h
      simp only [List.map_cons, if_neg (show ¬((k0, v0).1 = k) from hk)]
      rw [List.find?_cons_of_neg _ (by simp [hk])]
      exact ih hc2

theorem find?_map_replace_other (es : List (PyKey × PyVal)) (k : PyKey)
    (v : PyVal) (k' : PyKey) (h : k' ≠ k) :
    (es.map (fun p => if p.1 = k then (k, v) else p)).find?
      (fun p => p.1 == k') = es.find? (fun p => p.1 == k') := by
  induction es with
  | nil => rfl
  | cons p rest ih =>
    obtain ⟨k0, v0⟩ := p
    by_cases hk : k0 = k
    · simp only [List.map_cons, if_pos (show (k0, v0).1 = k from hk)]
      rw [List.find?_cons_of_neg _ (by simp [Ne.symm h]),
        List.find?_cons_of_neg _ (by simp [hk, Ne.symm h])]
      exact ih
    · simp only [List.map_cons, if_neg (show ¬((k0, v0).1 = k) from hk)]
      by_cases hp : k0 = k'
      · rw [List.find?_cons_of_pos _ (by simp [hp]),
          List.find?_cons_of_pos _ (by simp [hp])]
      · rw [List.find?_cons_of_neg _ (by simp [hp]),
          List.find?_cons_of_neg _ (by simp [hp])]
        exact ih

theorem pyGet_setKey_same (es : List (PyKey × PyVal)) (k : PyKey)
    (v : PyVal) : pyGet (setKey es k v) k = v := by
  unfold setKey
  by_cases hc : (es.map Prod.fst).contains k = true
  · rw [if_pos hc]
    unfold pyGet
    rw [find?_map_replace es k v ((contains_iff_mem _ _).mp hc)]
  · rw [if_neg hc]
    unfold pyGet
    rw [List.find?_append]
    have h1 : es.find? (fun p => p.1 == k) = none := by
      rw [List.find?_eq_none]
      intro p hp hbeq
      exact hc ((contains_iff_mem _ _).mpr
        (List.mem_map.mpr ⟨p, hp, by simpa using hbeq⟩))
    rw [h1]
    simp [List.find?_cons]

theorem pyGet_setKey_other (es : List (PyKey × PyVal)) (k : PyKey)
    (v : PyVal) (k' : PyKey) (h : k' ≠ k) :
    pyGet (setKey es k v) k' = pyGet es k' := by
  unfold setKey
  by_cases hc : (es.map Prod.fst).contains k = true
  · rw [if_pos hc]
    unfold pyGet
    rw [find?_map_replace_other es k v k' h]
  · rw [if_neg hc]
    unfold pyGet
    rw [List.find?_append]
    cases h1 : es.find? (fun p => p.1 == k') with
    | some p => rfl
    | none =>
      simp only [Option.none_or]
      rw [List.find?_cons_of_neg _ (by simp [Ne.symm h])]
      rfl

/-- `dict.update` is a shallow merge: on every key the result reads the
overlay's value when the key is in the overlay, the original's value
otherwise. -/
theorem pyGet_dictUpdate :
    ∀ (m es : List (PyKey × PyVal)) (k : PyKey),
      distinctKeys (m.map Prod.fst) = true →
      pyGet (dictUpdate es m) k =
        if pyContains m k then pyGet m k else pyGet es k := by
  intro m
  induction m with
  | nil =>
    intro es k _
    simp [dictUpdate, pyContains]
  | cons p rest ih =>
    intro es k hd
    obtain ⟨k0, v0⟩ := p
    have hd3 : distinctKeys (k0 :: rest.map Prod.fst) = true := by
      simpa using hd
    obtain ⟨hk0notin, hd2⟩ := distinctKeys_cons hd3
    have hstep : dictUpdate es ((k0, v0) :: rest) =
        dictUpdate (setKey es k0 v0) rest := rfl
    rw [hstep, ih (setKey es k0 v0) k hd2]
    by_cases hkr : pyContains rest k = true
    · have hk0k : k0 ≠ k := by
        intro he
        subst he
        exact hk0notin ((contains_iff_mem _ _).mp hkr)
      rw [if_pos hkr]
      have hm : pyContains ((k0, v0) :: rest) k = true := by
        simp only [pyContains] at hkr ⊢
        simp only [List.map_cons, List.contains_cons, hkr, Bool.or_true]
      rw [if_pos hm, pyGet_cons, if_neg hk0k]
    · rw [if_neg hkr]
      by_cases hkk : k0 = k
      · subst hkk
        rw [pyGet_setKey_same]
        have hm : pyContains ((k0, v0) :: rest) k0 = true := by
          simp [pyContains]
        rw [if_pos hm, pyGet_cons, if_pos rfl]
      · rw [pyGet_setKey_other es k0 v0 k (Ne.symm hkk)]
        have hm : ¬(pyContains ((k0, v0) :: rest) k = true) := by
          simp only [pyContains, List.map_cons, List.contains_cons,
            Bool.or_eq_true]
          rintro (h | h)
          · have h2 : k = k0 := by simpa using h
            exact hkk h2.symm
          · exact hkr h
        rw [if_neg hm]

/-! ## C1: the resume endpoint -/

/-- The storage-level resume (`create_resume_checkpoint`) implements
exactly what the claim states: the source thread's rows are untouched,
the new thread holds exactly one checkpoint, its parent id is `NULL`,
and its state is the source state shallow-merged with the overlay
(overlay keys winning).  This corroborates that the claim captures the
intent and the endpoint's `request.modified_state` access is the slip. -/
theorem create_resume_checkpoint_implements_claim :
    ∀ (t : CheckpointTable) (orig cpid newTid nowIso : String)
      (desc : Option String) (row : CheckpointRow)
      (es m : List (PyKey × PyVal)),
      selectCheckpoint t orig cpid = some row →
      deserialize_state row.checkpoint_data = .pyDict es →
      (∀ r ∈ t, r.thread_id ≠ newTid) →
      m ≠ [] → distinctKeys (m.map Prod.fst) = true →
      SqliteCheckpointer.create_resume_checkpoint t orig cpid newTid
          (some m) desc nowIso =
        .ok (t ++ [SqliteCheckpointer.resumeRow orig cpid newTid
          (.pyDict (dictUpdate es m)) desc nowIso],
          cpid ++ "_resume_start") ∧
      (t ++ [SqliteCheckpointer.resumeRow orig cpid newTid
          (.pyDict (dictUpdate es m)) desc nowIso]).filter
        (fun r => r.thread_id == orig) =
        t.filter (fun r => r.thread_id == orig) ∧
      (t ++ [SqliteCheckpointer.resumeRow orig cpid newTid
          (.pyDict (dictUpdate es m)) desc nowIso]).filter
        (fun r => r.thread_id == newTid) =
        [SqliteCheckpointer.resumeRow orig cpid newTid
          (.pyDict (dictUpdate es m)) desc nowIso] ∧
      (SqliteCheckpointer.resumeRow orig cpid newTid
        (.pyDict (dictUpdate es m)) desc nowIso).parent_checkpoint_id =
        none ∧
      (∀ k, pyGet (dictUpdate es m) k =
        if pyContains m k then pyGet m k else pyGet es k) := by
  intro t orig cpid newTid nowIso desc row es m hsel hdes hfresh hmne hmdk
  have hsel2 : t.find? (fun r => pkMatches r orig cpid) = some row := hsel
  have hrowmem : row ∈ t := List.mem_of_find?_eq_some hsel2
  have hpk : pkMatches row orig cpid = true := by
    have h := List.find?_some hsel2
    exact h
  have horig : row.thread_id = orig := by
    simp only [pkMatches, Bool.and_eq_true, beq_iff_eq] at hpk
    exact hpk.1
  have hneq : orig ≠ newTid := by
    intro he
    exact hfresh row hrowmem (horig.trans he)
  have hmempty : m.isEmpty = false := by
    cases m with
    | nil => exact absurd rfl hmne
    | cons a as => rfl
  refine ⟨?_, ?_, ?_, rfl, fun k => pyGet_dictUpdate m es k hmdk⟩
  · unfold SqliteCheckpointer.create_resume_checkpoint
    rw [hsel]
    dsimp only
    rw [hdes]
    unfold applyModificationsPy
    dsimp only
    simp only [hmempty, Bool.false_eq_true, if_false, pyDictUpdate]
    have hins : (t.any (fun q => pkMatches q
        (SqliteCheckpointer.resumeRow orig cpid newTid
          (.pyDict (dictUpdate es m)) desc nowIso).thread_id
        (SqliteCheckpointer.resumeRow orig cpid newTid
          (.pyDict (dictUpdate es m)) desc nowIso).checkpoint_id)) = false := by
      rw [List.any_eq_false]
      intro q hq
      simp only [pkMatches, Bool.and_eq_true, beq_iff_eq]
      rintro ⟨h1, _⟩
      exact hfresh q hq h1
    unfold sqlInsert
    rw [hins]
    rfl
  · rw [List.filter_append]
    have : ([SqliteCheckpointer.resumeRow orig cpid newTid
        (.pyDict (dictUpdate es m)) desc nowIso].filter
        (fun r => r.thread_id == orig)) = [] := by
      simp [SqliteCheckpointer.resumeRow, Ne.symm hneq]
    rw [this, List.append_nil]
  · rw [List.filter_append]
    have h1 : t.filter (fun r => r.thread_id == newTid) = [] := by
      rw [List.filter_eq_nil_iff]
      intro r hr
      simp only [beq_iff_eq]
      exact fun he => hfresh r hr (by simpa using he)
    rw [h1, List.nil_append]
    simp [SqliteCheckpointer.resumeRow]

/-! ## Theorem for C1 proper -/

/-- C1 (code bug).  `resume_execution` never succeeds and never writes:
after loading the source checkpoint it evaluates `request.modified_state`
— an attribute access on the HTTP `Request` object, which has no such
attribute (the parsed body is `body`, whose validated `modified_state`
field goes unused; the sibling branch endpoint correctly reads
`body.modified_state`) — so every call raises `AttributeError` and
returns the global handler's sanitized 500 with the table unchanged.
On a concrete one-checkpoint store, resume of `("t", "c")` yields the
500 and creates no new thread, contradicting the claim. -/
theorem resume_endpoint_never_writes :
    (∀ (t : CheckpointTable) (thread_id checkpoint_id : String)
      (body : ResumeRequest) (nowIso uuidHex : String),
      (resume_execution t thread_id checkpoint_id body nowIso uuidHex).1 = t ∧
      ∀ p, (resume_execution t thread_id checkpoint_id body nowIso
        uuidHex).2 ≠ .ok p) ∧
    resume_execution exTable "t" "c" exResumeBody "2024-01-02T00:00:00"
      "deadbeef" = (exTable, .httpError 500 sanitized_error_detail) ∧
    resume_execution_api TRACELENS_MAX_STATE_SIZE_DEFAULT exTable "t" "c"
      exResumeBody "2024-01-02T00:00:00" "deadbeef" =
      (exTable, .httpError 500 sanitized_error_detail) := by
  refine ⟨?_, rfl, rfl⟩
  intro t thread_id checkpoint_id body nowIso uuidHex
  unfold resume_execution
  cases h : selectCheckpoint t thread_id checkpoint_id <;>
    simp [h, request_attr_modified_state]

/-! ## C2: the size ceiling on network writes -/

/-- C2.  A state payload whose JSON serialization exceeds the configured
byte ceiling (default `10 * 1024 * 1024`) is rejected by the Pydantic
validator — which runs before the handler — with a validation error, and
the checkpoint table is returned unchanged, for each of the three write
endpoints (update-state, resume, branch). -/
theorem oversized_payload_rejected :
    ∀ (maxSize : Nat) (t : CheckpointTable)
      (thread_id checkpoint_id : String) (state : StateDict)
      (desc : Option String) (nowIso uuidHex : String)
      (rbody : ResumeRequest) (bbody : BranchRequest),
      stateSerializedLen state > maxSize →
      (update_checkpoint_state_api maxSize t thread_id checkpoint_id state
          desc nowIso uuidHex =
        (t, .validationError ("State size (" ++
          toString (stateSerializedLen state) ++
          " bytes) exceeds limit (" ++ toString maxSize ++ " bytes)"))) ∧
      (rbody.modified_state = some state →
        resume_execution_api maxSize t thread_id checkpoint_id rbody
          nowIso uuidHex =
        (t, .validationError ("modified_state size (" ++
          toString (stateSerializedLen state) ++
          " bytes) exceeds limit (" ++ toString maxSize ++ " bytes)"))) ∧
      (bbody.modified_state = some state →
        create_branch_api maxSize t thread_id checkpoint_id bbody
          nowIso uuidHex =
        (t, .validationError ("modified_state size (" ++
          toString (stateSerializedLen state) ++
          " bytes) exceeds limit (" ++ toString maxSize ++ " bytes)"))) ∧
      TRACELENS_MAX_STATE_SIZE_DEFAULT = 10 * 1024 * 1024 := by
  intro maxSize t thread_id checkpoint_id state desc nowIso uuidHex
    rbody bbody h
  refine ⟨?_, ?_, ?_, rfl⟩
  · unfold update_checkpoint_state_api validate_state_size
    rw [if_pos h]
  · intro hr
    unfold resume_execution_api validate_modified_state
    rw [hr]
    dsimp only
    rw [if_pos h]
  · intro hb
    unfold create_branch_api validate_modified_state
    rw [hb]
    dsimp only
    rw [if_pos h]

/-- C2 witness: with a ceiling of 3 bytes, the 8-byte payload
`[("a", 1)]` is rejected by the update-state endpoint and the empty
store stays empty. -/
theorem oversized_payload_rejected_witness :
    stateSerializedLen [("a", .jint 1)] > 3 ∧
    update_checkpoint_state_api 3 [] "t" "c" [("a", .jint 1)] none
      "2024-01-01T00:00:00" "u" =
      ([], .validationError "State size (8 bytes) exceeds limit (3 bytes)") :=
  ⟨by decide, by
    have h := (oversized_payload_rejected 3 [] "t" "c" [("a", .jint 1)] none
      "2024-01-01T00:00:00" "u" exResumeBody exBranchBody (by decide)).1
    exact h⟩

/-! ## C7/C10: graph reconstruction -/

theorem mem_build_nodes {spans : List Span} {n : NodeModel} :
    n ∈ build_nodes_from_spans spans ↔
      (∃ s ∈ spans, strStarts s.name "agent.node." = true ∧
        n = agentNodeOf s) ∨
      (∃ s ∈ spans, strStarts s.name "agent.tool." = true ∧
        parentMatched (agentSpanIds spans) s = true ∧ n = toolNodeOf s) := by
  unfold build_nodes_from_spans
  simp only [List.mem_append, List.mem_map, List.mem_filter, Bool.and_eq_true]
  constructor
  · rintro (⟨s, ⟨hs, hname⟩, rfl⟩ | ⟨s, ⟨hs, hname, hpar⟩, rfl⟩)
    · exact Or.inl ⟨s, hs, hname, rfl⟩
    · exact Or.inr ⟨s, hs, hname, hpar, rfl⟩
  · rintro (⟨s, hs, hname, rfl⟩ | ⟨s, hs, hname, hpar, rfl⟩)
    · exact Or.inl ⟨s, ⟨hs, hname⟩, rfl⟩
    · exact Or.inr ⟨s, ⟨hs, hname, hpar⟩, rfl⟩

theorem mem_consecutiveEdges (validIds : List String) :
    ∀ (l : List Span) (e : EdgeModel), e ∈ consecutiveEdges validIds l →
      e.source ∈ validIds ∧ e.target ∈ validIds := by
  intro l
  induction l with
  | nil => intro e he; cases he
  | cons a rest ih =>
    cases rest with
    | nil => intro e he; cases he
    | cons b rest2 =>
      intro e he
      unfold consecutiveEdges at he
      rcases List.mem_append.mp he with h1 | h2
      · by_cases hg :
            (validIds.contains a.span_id && validIds.contains b.span_id) = true
        · rw [if_pos hg] at h1
          simp only [List.mem_singleton] at h1
          subst h1
          simp only [Bool.and_eq_true] at hg
          exact ⟨(contains_iff_mem _ _).mp hg.1, (contains_iff_mem _ _).mp hg.2⟩
        · rw [if_neg hg] at h1
          cases h1
      · exact ih e h2

theorem toolEdgeOf_mem {validIds : List String} {s : Span} {e : EdgeModel}
    (h : toolEdgeOf validIds s = some e) :
    e.source ∈ validIds ∧ e.target ∈ validIds := by
  unfold toolEdgeOf at h
  by_cases h1 :
      (strStarts s.name "agent.tool." && validIds.contains s.span_id) = true
  · rw [if_pos h1] at h
    cases hp : s.parent_span_id with
    | none => rw [hp] at h; cases h
    | some p =>
      rw [hp] at h
      dsimp only at h
      by_cases h2 : (p != "" && validIds.contains p) = true
      · rw [if_pos h2] at h
        cases h
        simp only [Bool.and_eq_true] at h1 h2
        exact ⟨(contains_iff_mem _ _).mp h2.2, (contains_iff_mem _ _).mp h1.2⟩
      · rw [if_neg h2] at h
        cases h
  · rw [if_neg h1] at h
    cases h

theorem mem_build_edges {spans : List Span} {nodes : List NodeModel}
    {e : EdgeModel} (he : e ∈ build_edges_from_spans spans nodes) :
    e.source ∈ nodes.map NodeModel.id ∧ e.target ∈ nodes.map NodeModel.id := by
  unfold build_edges_from_spans at he
  rcases List.mem_append.mp he with h | h
  · exact mem_consecutiveEdges _ _ e h
  · obtain ⟨s, _, hf⟩ := List.mem_filterMap.mp h
    exact toolEdgeOf_mem hf

theorem mem_deduplicate_edges_go :
    ∀ (l : List EdgeModel) (seen : List (String × String)) (e : EdgeModel),
      e ∈ deduplicate_edges_go seen l → e ∈ l := by
  intro l
  induction l with
  | nil => intro seen e he; cases he
  | cons x rest ih =>
    intro seen e he
    unfold deduplicate_edges_go at he
    by_cases hs : ((x.source, x.target) ∈ seen)
    · rw [if_pos (by simpa using hs)] at he
      exact List.mem_cons_of_mem x (ih _ e he)
    · rw [if_neg (by simpa using hs)] at he
      rcases List.mem_cons.mp he with h | h
      · exact h ▸ List.mem_cons_self x rest
      · exact List.mem_cons_of_mem x (ih _ e h)

/-- C7.  A tool-call span whose parent span id matches no node-execution
span of the thread contributes no node and no edge to the reconstructed
graph: no emitted node carries its span id, and no edge has its span id as
source or target.  (Distinctness of span ids — the `(trace_id, span_id)`
primary key within one trace — is what lets "contributed by this span" be
read off the ids.) -/
theorem orphan_tool_span_invisible :
    ∀ (checkpoints : CheckpointTable) (spans : List Span) (s : Span),
      s ∈ spans →
      strStarts s.name "agent.tool." = true →
      (∀ a ∈ spans, strStarts a.name "agent.node." = true →
        some a.span_id ≠ s.parent_span_id) →
      (∀ u ∈ spans, u.span_id = s.span_id → u = s) →
      (∀ n ∈ (build_graph checkpoints spans).nodes, n.id ≠ s.span_id) ∧
      (∀ e ∈ (build_graph checkpoints spans).edges,
        e.source ≠ s.span_id ∧ e.target ≠ s.span_id) := by
  intro cps spans s hs htool horphan hfresh
  have hnodes : ∀ n ∈ build_nodes_from_spans spans, n.id ≠ s.span_id := by
    intro n hn heq
    rcases mem_build_nodes.mp hn with ⟨a, ha, haname, rfl⟩ |
      ⟨a, ha, haname, hapar, rfl⟩
    · have heq' : a.span_id = s.span_id := heq
      have haeq : a = s := hfresh a ha heq'
      subst haeq
      exact strStarts_node_tool _ haname htool
    · have heq' : a.span_id = s.span_id := heq
      have haeq : a = s := hfresh a ha heq'
      subst haeq
      unfold parentMatched at hapar
      cases hp : a.parent_span_id with
      | none => rw [hp] at hapar; cases hapar
      | some p =>
        rw [hp] at hapar
        have hmem : p ∈ agentSpanIds spans := (contains_iff_mem _ _).mp hapar
        unfold agentSpanIds at hmem
        obtain ⟨a2, ha2, hpid⟩ := List.mem_map.mp hmem
        obtain ⟨ha2mem, ha2name⟩ := List.mem_filter.mp ha2
        exact horphan a2 ha2mem ha2name (by rw [hpid, hp])
  have hvalid : s.span_id ∉ (build_nodes_from_spans spans).map NodeModel.id := by
    intro hmem
    obtain ⟨n, hn, hnid⟩ := List.mem_map.mp hmem
    exact hnodes n hn hnid
  refine ⟨hnodes, ?_⟩
  intro e he
  have he2 : e ∈ build_edges_from_spans spans (build_nodes_from_spans spans) :=
    mem_deduplicate_edges_go _ [] e he
  have hv := mem_build_edges he2
  constructor
  · intro hsrc
    rw [hsrc] at hv
    exact hvalid hv.1
  · intro htgt
    rw [htgt] at hv
    exact hvalid hv.2

/-- C7 witness: a concrete orphaned tool span (`parent_span_id = "zz"`
matching no agent span) leaves no trace in the graph of its thread. -/
theorem orphan_tool_span_invisible_witness :
    exOrphanToolSpan ∈ exSpansOrphan ∧
    strStarts exOrphanToolSpan.name "agent.tool." = true ∧
    ((∀ n ∈ (build_graph [] exSpansOrphan).nodes,
        n.id ≠ exOrphanToolSpan.span_id) ∧
      (∀ e ∈ (build_graph [] exSpansOrphan).edges,
        e.source ≠ exOrphanToolSpan.span_id ∧
        e.target ≠ exOrphanToolSpan.span_id)) :=
  ⟨by decide, by decide,
    orphan_tool_span_invisible [] exSpansOrphan exOrphanToolSpan (by decide)
      (by decide) (by decide) (by decide)⟩

/-- C10.  Every `tool_node` of a reconstructed graph has status
`completed` or `active`, never `failed` — even when the tool span's
attributes carry an error status — because the tool branch of
`_build_nodes_from_spans` computes its status from `end_time` alone;
only node-execution (agent) spans get the `failed` status. -/
theorem tool_nodes_never_failed :
    ∀ (checkpoints : CheckpointTable) (spans : List Span) (n : NodeModel),
      n ∈ (build_graph checkpoints spans).nodes → n.type = "tool_node" →
      n.status = "completed" ∨ n.status = "active" := by
  intro cps spans n hn htype
  have hn2 : n ∈ build_nodes_from_spans spans := hn
  rcases mem_build_nodes.mp hn2 with ⟨a, _, _, rfl⟩ | ⟨a, _, _, _, rfl⟩
  · exact absurd htype (by simp [agentNodeOf])
  · simp only [toolNodeOf, toolSpanStatus]
    by_cases he : a.end_time = none
    · simp [he]
    · simp [he]

/-- C10 witness: the finished tool span with `status = "error"` in its
attributes still yields a `tool_node` with status `completed`. -/
theorem tool_nodes_never_failed_witness :
    toolNodeOf exToolSpanErr ∈ (build_graph [] exSpans).nodes ∧
    (toolNodeOf exToolSpanErr).type = "tool_node" ∧
    attrGet exToolSpanErr.attributes "status" "" = "error" ∧
    ((toolNodeOf exToolSpanErr).status = "completed" ∨
      (toolNodeOf exToolSpanErr).status = "active") :=
  ⟨by decide, by decide, by decide,
    tool_nodes_never_failed [] exSpans (toolNodeOf exToolSpanErr)
      (by decide) (by decide)⟩

end TraceLens
